import Mathlib

/-!
# JemaOS power daemon: suspend handshake, signal dispatch, backlight persistence

A shallow embedding of the Go packages `dbusutil`, `suspend_manager` and
`backlight_manager`.  Every Go function that touches the outside world (the D-Bus
peer, the file system, the hook scripts, the log) is a pure function here: what the
outside world answers enters as an argument, what the function does to it is returned
as a list of `Event`s, oldest first.  A method with a pointer receiver returns the
receiver's new value.
-/

set_option autoImplicit false

/-! ## Go values -/

/-- A Go `string` is a sequence of bytes; `len` and slicing count bytes. -/
abbrev GoString := List Nat

/-- The Go string of an ASCII literal: one byte per character. -/
def ascii (s : String) : GoString := s.toList.map Char.toNat

/-- A Go byte slice. -/
abbrev Bytes := List Nat

/-- A Go `float64`.  Every finite double is a rational number, so the finite values are
modelled by `fin q` (`fin 0` is `+0`); the other values of the format are each one
constructor. -/
inductive Float64 where
  | NaN
  | posInf
  | negInf
  | negZero
  | fin (q : ℚ)
  deriving DecidableEq

/-- Place of a float on the extended number line, `none` for NaN: the sign of its
infinity (or 0) and its finite value. -/
def Float64.rank : Float64 → Option (Int × ℚ)
  | .NaN => none
  | .posInf => some (1, 0)
  | .negInf => some (-1, 0)
  | .negZero => some (0, 0)
  | .fin q => some (0, q)

/-- Go `a > b` on `float64`: false whenever an operand is NaN. -/
def Float64.gt (a b : Float64) : Bool :=
  match a.rank, b.rank with
  | some x, some y => decide (y.1 < x.1 ∨ (x.1 = y.1 ∧ y.2 < x.2))
  | _, _ => false

/-- Go `a <= b` on `float64`: false whenever an operand is NaN. -/
def Float64.le (a b : Float64) : Bool :=
  match a.rank, b.rank with
  | some x, some y => decide (x.1 < y.1 ∨ (x.1 = y.1 ∧ x.2 ≤ y.2))
  | _, _ => false

/-- Go `a != b` on `float64`: true whenever an operand is NaN, false for `-0` and `+0`. -/
def Float64.ne (a b : Float64) : Bool :=
  match a.rank, b.rank with
  | some x, some y => decide (x ≠ y)
  | _, _ => true

/-- Go `error` values: `errors.New`, `fmt.Errorf` without and with a wrapped error.
A `nil` error is `none : Option GoError`. -/
inductive GoError where
  | New (text : String)
  | Errorf (format : String) (arg : GoString)
  | Wrap (format : String) (arg : GoString) (wrapped : GoError)
  deriving DecidableEq, Repr

/-- One element of a D-Bus message body (an `interface{}` in Go): a byte slice, or a
value of any other dynamic type. -/
inductive Variant where
  | bytes (b : Bytes)
  | other
  deriving DecidableEq, Repr

/-- The fields of `dbus.Signal` the daemon reads. -/
structure Signal where
  Name : GoString
  Body : List Variant
  deriving DecidableEq, Repr

/-- What the daemon reads of a `dbus.Call` after `CallWithContext` returned: the fields
`Err` and `ResponseSequence`, and what `call.Store(&marshOut)` returns for the byte-slice
destination `marshOut`: the bytes it stored, or its error.  The library converts the reply
body by reflection (a byte array, a string, a slice of convertible elements, a variant
holding one of them); which bodies it converts is the library's matter, so the result of
the conversion is part of the answer of the peer. -/
structure Call where
  Err : Option GoError
  Store : Except GoError Bytes
  ResponseSequence : Nat

/-- The peer behind `dbus.BusObject`: what `obj.CallWithContext(ctx, method, 0, args...)`
returns for a method name and its arguments. -/
abbrev BusObject := GoString → List Bytes → Call

/-- What a function did to the outside world. `log` keeps the format string of the
`log.Printf` or `log.Println` call; `logSave` is the line `save config %s:%s` that opens
`saveHWConfig`, with its two arguments; `stat` is `os.Stat` or `os.Lstat`; `addMatch`
and `removeMatch` are `conn.AddMatchSignal` and `conn.RemoveMatchSignal` for a member of
the power manager interface. -/
inductive Event where
  | log (format : String)
  | logSave (name : GoString) (value : GoString)
  | call (method : GoString) (args : List Bytes)
  | stat (path : GoString)
  | readFile (path : GoString)
  | exec (path : GoString) (args : List GoString)
  | mkdir (path : GoString)
  | writeFile (path : GoString) (data : GoString)
  | addMatch (member : GoString)
  | removeMatch (member : GoString)
  deriving DecidableEq, Repr

/-- What a method returns: its `error` result, the new value of its receiver, and the
events it caused. -/
structure Result (σ : Type) where
  err : Option GoError
  state : σ
  events : List Event

/-- Result of `exec.CommandContext(ctx, path).Run()` under the deadline of `ctx`. -/
inductive RunResult where
  | ok
  | notFound
  | nonZeroExit
  | timedOut
  deriving DecidableEq, Repr

/-- What the machine answers about one hook script during one handler run: whether
`os.Stat` of it fails, and how running it ends. -/
structure Script where
  statErr : Bool
  run : RunResult
  deriving DecidableEq, Repr

/-! ## power_manager_proto: the messages, by the values their getters return -/

namespace pmpb

structure SuspendImminent where
  SuspendId : Int
  Reason : Int
  deriving DecidableEq, Repr

structure SuspendDone where
  SuspendId : Int
  SuspendDuration : Int
  WakeupType : Int
  deriving DecidableEq, Repr

structure SuspendReadinessInfo where
  DelayId : Int
  SuspendId : Int
  deriving DecidableEq, Repr

structure RegisterSuspendDelayRequest where
  Timeout : Int
  Description : GoString
  deriving DecidableEq, Repr

structure RegisterSuspendDelayReply where
  DelayId : Int
  deriving DecidableEq, Repr

structure UnregisterSuspendDelayRequest where
  DelayId : Int
  deriving DecidableEq, Repr

/-- The protobuf library on the messages of the suspend handshake: `proto.Marshal`
(`none` when it returns an error) and `proto.Unmarshal` into a fresh message (`none`
when it returns an error). -/
structure Codec where
  MarshalSuspendReadinessInfo : SuspendReadinessInfo → Option Bytes
  MarshalRegisterSuspendDelayRequest : RegisterSuspendDelayRequest → Option Bytes
  MarshalUnregisterSuspendDelayRequest : UnregisterSuspendDelayRequest → Option Bytes
  UnmarshalRegisterSuspendDelayReply : Bytes → Option RegisterSuspendDelayReply
  UnmarshalSuspendImminent : Bytes → Option SuspendImminent
  UnmarshalSuspendDone : Bytes → Option SuspendDone

end pmpb

/-! ## package dbusutil -/

namespace dbusutil

def PowerManagerInterface : GoString := ascii "org.chromium.PowerManager"

def PowerManagerName : GoString := ascii "org.chromium.PowerManager"

def PowerManagerPath : GoString := ascii "/org/chromium/PowerManager"

/-- `CallProtoMethodWithSequence`: `inp` is the `in` message (`none` for `nil`) with its
`Marshal`; `out` is `none` for a `nil` out message and otherwise the `Unmarshal` that
fills it.  Returns the events, the response sequence and either the error or the
filled out message. -/
def CallProtoMethodWithSequence {In Out : Type} (Marshal : In → Option Bytes)
    (obj : BusObject) (method : GoString) (inp : Option In)
    (out : Option (Bytes → Option Out)) :
    List Event × Nat × Except GoError (Option Out) :=
  let marshalled : Except GoError (List Bytes) :=
    match inp with
    | none => .ok []
    | some m =>
      match Marshal m with
      | none => .error (.Errorf "failed marshaling %s arg" method)
      | some marshIn => .ok [marshIn]
  match marshalled with
  | .error e => ([], 0, .error e)
  | .ok args =>
    let call := obj method args
    let evs := [Event.call method args]
    match call.Err with
    | some e => (evs, call.ResponseSequence, .error (.Wrap "failed calling %s, err:%w" method e))
    | none =>
      match out with
      | none => (evs, call.ResponseSequence, .ok none)
      | some Unmarshal =>
        match call.Store with
        | .error e =>
          (evs, call.ResponseSequence, .error (.Wrap "failed reading %s response, err:%w" method e))
        | .ok marshOut =>
          match Unmarshal marshOut with
          | none =>
            (evs, call.ResponseSequence,
              .error (.Wrap "failed unmarshaling %s response, err:%w" method (.New "proto")))
          | some v => (evs, call.ResponseSequence, .ok (some v))

/-- `CallProtoMethod`: the same, dropping the response sequence. -/
def CallProtoMethod {In Out : Type} (Marshal : In → Option Bytes)
    (obj : BusObject) (method : GoString) (inp : Option In)
    (out : Option (Bytes → Option Out)) : List Event × Except GoError (Option Out) :=
  let r := CallProtoMethodWithSequence Marshal obj method inp out
  (r.1, r.2.2)

/-- `DecodeSignal` into a message whose `proto.Unmarshal` is `Unmarshal`. -/
def DecodeSignal {α : Type} (Unmarshal : Bytes → Option α) (sig : Signal) : Except GoError α :=
  match sig.Body with
  | [] => .error (.New "signal lacked a body")
  | Variant.bytes buf :: _ =>
    match Unmarshal buf with
    | none => .error (.New "failed unmarshaling signal body")
    | some m => .ok m
  | _ :: _ => .error (.New "signal body is not a byte slice")

def GetPMMethod (method : GoString) : GoString :=
  PowerManagerInterface ++ ascii "." ++ method

/-- `SignalHandlers`: a slice of handlers; `none` is a `nil` handler.  A handler is a
value of the type `H`; what calling it does is given where it is called. -/
abbrev SignalHandlers (H : Type) := List (Option H)

/-- `SignalMap`: the handlers of each signal name, one entry per name. -/
abbrev SignalMap (H : Type) := List (GoString × SignalHandlers H)

/-- Go `m[k]` with the comma-ok form. -/
def SignalMap.get {H : Type} : SignalMap H → GoString → Option (SignalHandlers H)
  | [], _ => none
  | (k, v) :: rest, name => if k = name then some v else SignalMap.get rest name

/-- Go `m[k] = v`, or a write through the pointer stored under `k`. -/
def SignalMap.set {H : Type} : SignalMap H → GoString → SignalHandlers H → SignalMap H
  | [], name, v => [(name, v)]
  | (k, old) :: rest, name, v =>
    if k = name then (k, v) :: rest else (k, old) :: SignalMap.set rest name v

/-- The mutable field of `SignalServer`. -/
structure SignalServer (H : Type) where
  sigmap : SignalMap H

def NewSignalServer {H : Type} : SignalServer H := { sigmap := [] }

/-- `RegisterSignalHandler`. -/
def RegisterSignalHandler {H : Type} (sigServer : SignalServer H) (sigName : GoString)
    (handler : Option H) : SignalServer H :=
  match sigServer.sigmap.get sigName with
  | none =>
    let buff : SignalHandlers H := []
    let sigmap1 := sigServer.sigmap.set sigName buff
    { sigmap := sigmap1.set sigName (buff ++ [handler]) }
  | some handlers => { sigmap := sigServer.sigmap.set sigName (handlers ++ [handler]) }

/-- The loop of `handleSignal` over the handlers of one name: a `nil` handler is
skipped, an error of a handler is logged and the loop goes on.  `invoke h sig w` is the
call `h(sig)` in the world `w` the handlers act on. -/
def callHandlers {H W : Type} (invoke : H → Signal → W → Option GoError × W) (sig : Signal) :
    SignalHandlers H → W → W × List Event
  | [], w => (w, [])
  | none :: hs, w => callHandlers invoke sig hs w
  | some h :: hs, w =>
    let r := invoke h sig w
    let logged : List Event :=
      match r.1 with
      | some _ => [Event.log "Handler signal error: %v"]
      | none => []
    let rest := callHandlers invoke sig hs r.2
    (rest.1, logged ++ rest.2)

/-- `handleSignal`, with what calling a handler does (`invoke`) and the world the
handlers act on.  The slice expression `sig.Name[len(PowerManagerInterface)+1:]` is out
of range, a run-time panic (`none`), when the name is shorter than the bound.  Returns
the server, the world and the events. -/
def handleSignal {H W : Type} (invoke : H → Signal → W → Option GoError × W)
    (sigServer : SignalServer H) (sig : Signal) (w : W) :
    Option (SignalServer H × W × List Event) :=
  if sig.Name.length < PowerManagerInterface.length + 1 then none
  else
    let member := sig.Name.drop (PowerManagerInterface.length + 1)
    let ev0 := [Event.log "Received Signal %s, member: %s"]
    match sigServer.sigmap.get member with
    | some handlers =>
      let r := callHandlers invoke sig handlers w
      some (sigServer, r.1, ev0 ++ r.2)
    | none => some (sigServer, w, ev0)

/-- The server after a sequence of `RegisterSignalHandler` calls, given by their
arguments. -/
def registerAll {H : Type} (sigServer : SignalServer H) (regs : List (GoString × Option H)) :
    SignalServer H :=
  regs.foldl (fun srv r => RegisterSignalHandler srv r.1 r.2) sigServer

/-- The handlers that a sequence of registrations puts under the name `member`, in the
order of their registration; `nil` handlers are left out. -/
def registeredUnder {H : Type} (regs : List (GoString × Option H)) (member : GoString) :
    List H :=
  (regs.filter (fun r => r.1 = member)).filterMap (fun r => r.2)

/-- Each handler of a list invoked exactly once, first to last, whatever the earlier ones
returned; an error adds one log line. -/
def invokeEach {H W : Type} (invoke : H → Signal → W → Option GoError × W) (sig : Signal) :
    List H → W → W × List Event
  | [], w => (w, [])
  | h :: hs, w =>
    let r := invoke h sig w
    let rest := invokeEach invoke sig hs r.2
    (rest.1, (if r.1.isSome then [Event.log "Handler signal error: %v"] else []) ++ rest.2)

/-- `addAllSignals`: one match rule per registered name, a failure being logged.  Go
ranges over the map in no fixed order; here it is the order of the entries. -/
def addAllSignals {H : Type} (addErr : GoString → Option GoError) :
    SignalMap H → List Event
  | [] => [Event.log "Finished adding signal filters."]
  | (name, _) :: rest =>
    [Event.log "Add signal filter path:%s, interface:%s, signal:%s", Event.addMatch name]
      ++ (if (addErr name).isSome then [Event.log "Add signal %s, got error: %v"] else [])
      ++ addAllSignals addErr rest

/-- The loop of `removeAllSignals`: the match rule of each registered name is removed, a
failure being logged. -/
def removeMatchSignals {H : Type} (removeErr : GoString → Option GoError) :
    SignalMap H → List Event
  | [] => []
  | (name, _) :: rest =>
    [Event.log "Remove signal filter path:%s, interface:%s, signal:%s", Event.removeMatch name]
      ++ (if (removeErr name).isSome then [Event.log "Remove signal %s, got error: %v"] else [])
      ++ removeMatchSignals removeErr rest

/-- `removeAllSignals`: the rules are removed and then `sigmap` is set to `nil`, which
reads as an empty map. -/
def removeAllSignals {H : Type} (removeErr : GoString → Option GoError)
    (sigServer : SignalServer H) : SignalServer H × List Event :=
  ({ sigmap := [] }, removeMatchSignals removeErr sigServer.sigmap)

/-- What the `select` of `StartWorking` receives: a signal on `ch`, the end of the
context, or a signal of the operating system on `sysch`. -/
inductive Inbound where
  | signal (sig : Signal)
  | ctxDone
  | sysSignal
  deriving DecidableEq, Repr

/-- How far a loop got on what it has received so far: it returned, it is blocked in
`select` waiting for more, or a run-time panic has ended it.  Each carries the state
reached and the events. -/
inductive LoopOutcome (σ : Type) where
  | exited (state : σ) (events : List Event)
  | waiting (state : σ) (events : List Event)
  | panicked (state : σ) (events : List Event)

/-- The outcome with events put in front and events put behind. -/
def LoopOutcome.wrap {σ : Type} (front : List Event) (back : List Event) :
    LoopOutcome σ → LoopOutcome σ
  | .exited s evs => .exited s (front ++ evs ++ back)
  | .waiting s evs => .waiting s (front ++ evs ++ back)
  | .panicked s evs => .panicked s (front ++ evs ++ back)

/-- The `for { select { ... } }` of `StartWorking` on the messages received, first to
last.  A panic of `handleSignal` is not recovered and ends the loop. -/
def workingLoop {H W : Type} (invoke : H → Signal → W → Option GoError × W) :
    SignalServer H → List Inbound → W → LoopOutcome (SignalServer H × W)
  | sigServer, [], w => .waiting (sigServer, w) []
  | sigServer, Inbound.ctxDone :: _, w => .exited (sigServer, w) []
  | sigServer, Inbound.sysSignal :: _, w => .exited (sigServer, w) []
  | sigServer, Inbound.signal sig :: rest, w =>
    match handleSignal invoke sigServer sig w with
    | none => .panicked (sigServer, w) []
    | some (sigServer1, w1, ev) => (workingLoop invoke sigServer1 rest w1).wrap ev []

/-- `StartWorking` on the messages received.  The deferred `removeAllSignals` runs when
the function returns and also while a panic unwinds; while the loop is blocked it has not
run. -/
def StartWorking {H W : Type} (invoke : H → Signal → W → Option GoError × W)
    (addErr removeErr : GoString → Option GoError)
    (sigServer : SignalServer H) (inbound : List Inbound) (w : W) :
    LoopOutcome (SignalServer H × W) :=
  let ev0 := addAllSignals addErr sigServer.sigmap ++ [Event.log "Start listening for signals..."]
  match workingLoop invoke sigServer inbound w with
  | .waiting s evs => .waiting s (ev0 ++ evs)
  | .exited s evs =>
    let r := removeAllSignals removeErr s.1
    .exited (r.1, s.2) (ev0 ++ evs ++ r.2)
  | .panicked s evs =>
    let r := removeAllSignals removeErr s.1
    .panicked (r.1, s.2) (ev0 ++ evs ++ r.2)

end dbusutil

/-! ## package suspend_manager -/

namespace suspend_manager

open dbusutil

def sigSuspendImminent : GoString := ascii "SuspendImminent"

def sigSuspendDone : GoString := ascii "SuspendDone"

def methdRegisterSuspendDelay : GoString := ascii "RegisterSuspendDelay"

def methdUnregisterSuspendDelay : GoString := ascii "UnregisterSuspendDelay"

def methdHandleSuspendReadiness : GoString := ascii "HandleSuspendReadiness"

def pathPreSuspendScript : GoString := ascii "/etc/powerd/pre_suspend.sh"

def pathPostResumeScript : GoString := ascii "/etc/powerd/post_resume.sh"

def serverDescription : GoString := ascii "JemaOS Suspend Manager"

def execTimeout : Int := 200

/-- The mutable fields of `SuspendManager` (`int32`, `int32`, `bool`).  The fields `ctx`
and `obj` are handles to the connection; the peer they reach is an argument of each
operation. -/
structure SuspendManager where
  delay_id : Int
  suspend_id : Int
  on_suspend_delay : Bool
  deriving DecidableEq, Repr

def NewSuspendManager : SuspendManager :=
  { delay_id := 0, suspend_id := 0, on_suspend_delay := false }

/-- `sendSuspendReadiness`: one `HandleSuspendReadiness` call with the manager's two ids. -/
def sendSuspendReadiness (codec : pmpb.Codec) (obj : BusObject) (manager : SuspendManager) :
    List Event × Option GoError :=
  let req : pmpb.SuspendReadinessInfo :=
    { DelayId := manager.delay_id, SuspendId := manager.suspend_id }
  let r := CallProtoMethod codec.MarshalSuspendReadinessInfo obj
    (GetPMMethod methdHandleSuspendReadiness) (some req) (none : Option (Bytes → Option Unit))
  (r.1, match r.2 with
        | .error e => some e
        | .ok _ => none)

/-- `handleSuspend`.  A failure of `os.Stat` and a failure of the script run under the
deadline are each logged and nothing else.  The deferred `sendSuspendReadiness` runs after
the script, when the function returns; its own result is dropped. -/
def handleSuspend (codec : pmpb.Codec) (obj : BusObject) (script : Script)
    (manager : SuspendManager) (signal : Signal) : Result SuspendManager :=
  let ev0 := [Event.log "Received Suspend signal"]
  if manager.on_suspend_delay then
    { err := some (.New "system is already in suspend state"), state := manager, events := ev0 }
  else
    match DecodeSignal codec.UnmarshalSuspendImminent signal with
    | .error e => { err := some e, state := manager, events := ev0 }
    | .ok suspendInfo =>
      let manager1 : SuspendManager :=
        { manager with suspend_id := suspendInfo.SuspendId, on_suspend_delay := true }
      let ev1 := [Event.log "On suspend: %d, reason: %s"]
      let ev2 := [Event.stat pathPreSuspendScript]
        ++ (if script.statErr then [Event.log "The script %s does not exist."] else [])
      let ev3 := [Event.exec pathPreSuspendScript []]
        ++ (if script.run = RunResult.ok then []
            else [Event.log "Error executing pre-suspend script: %v"])
      let deferred := sendSuspendReadiness codec obj manager1
      { err := none, state := manager1, events := ev0 ++ ev1 ++ ev2 ++ ev3 ++ deferred.1 }

/-- `handleResume`. -/
def handleResume (codec : pmpb.Codec) (script : Script)
    (manager : SuspendManager) (signal : Signal) : Result SuspendManager :=
  let ev0 := [Event.log "Received Resume signal"]
  if !manager.on_suspend_delay then
    { err := some (.New "system is not in suspend state"), state := manager, events := ev0 }
  else
    match DecodeSignal codec.UnmarshalSuspendDone signal with
    | .error e => { err := some e, state := manager, events := ev0 }
    | .ok suspendInfo =>
      let ev1 :=
        if suspendInfo.SuspendId != manager.suspend_id then
          [Event.log "The resume suspend ID is different from the original"]
        else []
      let manager1 : SuspendManager :=
        { manager with suspend_id := 0, on_suspend_delay := false }
      let ev2 := [Event.log "Resume complete: duration: %d, wakeup type: %s"]
      let ev3 := [Event.stat pathPostResumeScript]
        ++ (if script.statErr then [Event.log "The script %s does not exist."] else [])
      let ev4 := [Event.exec pathPostResumeScript []]
        ++ (if script.run = RunResult.ok then []
            else [Event.log "Error executing post-resume script: %v"])
      { err := none, state := manager1, events := ev0 ++ ev1 ++ ev2 ++ ev3 ++ ev4 }


/-- `Register`: one `RegisterSuspendDelay` call; on success the reply's delay id is
stored and the two closures `suspendHandler` and `resumeHandler` (here: their values in
the server's handler type) are registered. -/
def Register {H : Type} (codec : pmpb.Codec) (obj : BusObject)
    (suspendHandler resumeHandler : H)
    (manager : SuspendManager) (sigServer : SignalServer H) :
    Result (SuspendManager × SignalServer H) :=
  let req : pmpb.RegisterSuspendDelayRequest :=
    { Timeout := execTimeout, Description := serverDescription }
  let r := CallProtoMethod codec.MarshalRegisterSuspendDelayRequest obj
    (GetPMMethod methdRegisterSuspendDelay) (some req)
    (some codec.UnmarshalRegisterSuspendDelayReply)
  match r.2 with
  | .error e => { err := some e, state := (manager, sigServer), events := r.1 }
  | .ok rsp =>
    let delayId : Int :=
      match rsp with
      | some reply => reply.DelayId
      | none => 0
    let manager1 : SuspendManager := { manager with delay_id := delayId }
    let server1 := RegisterSignalHandler sigServer sigSuspendImminent (some suspendHandler)
    let server2 := RegisterSignalHandler server1 sigSuspendDone (some resumeHandler)
    { err := none, state := (manager1, server2),
      events := r.1 ++ [Event.log "Suspend manager registered"] }

/-- `UnRegister` (its `sigServer` argument is not used by the Go code). -/
def UnRegister (codec : pmpb.Codec) (obj : BusObject) (manager : SuspendManager) :
    Result SuspendManager :=
  if manager.delay_id != 0 then
    let req : pmpb.UnregisterSuspendDelayRequest := { DelayId := manager.delay_id }
    let r := CallProtoMethod codec.MarshalUnregisterSuspendDelayRequest obj
      (GetPMMethod methdUnregisterSuspendDelay) (some req)
      (none : Option (Bytes → Option Unit))
    { err := (match r.2 with
              | .error e => some e
              | .ok _ => none),
      state := manager,
      events := [Event.log "Unregistering suspend manager"] ++ r.1 }
  else
    { err := none, state := manager, events := [] }

/-- One notification as the dispatch loop hands it to the suspend manager, with what the
outside world answers while its handler runs. -/
inductive Notification where
  | SuspendImminent (signal : Signal) (obj : BusObject) (script : Script)
  | SuspendDone (signal : Signal) (script : Script)

/-- The handler the dispatch loop runs for a notification. -/
def deliver (codec : pmpb.Codec) (manager : SuspendManager) :
    Notification → Result SuspendManager
  | .SuspendImminent signal obj script => handleSuspend codec obj script manager signal
  | .SuspendDone signal script => handleResume codec script manager signal

/-- The handlers run one after the other over a sequence of notifications: the final
manager and all events. -/
def deliverAll (codec : pmpb.Codec) : SuspendManager → List Notification →
    SuspendManager × List Event
  | manager, [] => (manager, [])
  | manager, n :: ns =>
    let r := deliver codec manager n
    let rest := deliverAll codec r.state ns
    (rest.1, r.events ++ rest.2)

/-- Number of suspend notifications of the sequence that `handleSuspend` accepted
(returned `nil` for). -/
def acceptedSuspends (codec : pmpb.Codec) : SuspendManager → List Notification → Nat
  | _, [] => 0
  | manager, n :: ns =>
    let r := deliver codec manager n
    let here : Nat :=
      match n with
      | .SuspendImminent _ _ _ => if r.err = none then 1 else 0
      | .SuspendDone _ _ => 0
    here + acceptedSuspends codec r.state ns

/-- One step of the life of a suspend manager, with what the outside world answers
during it: `Register` with the closures it registers, or one of the two handlers. -/
inductive Step (H : Type) where
  | Register (obj : BusObject) (suspendHandler resumeHandler : H)
  | handleSuspend (signal : Signal) (obj : BusObject) (script : Script)
  | handleResume (signal : Signal) (script : Script)

/-- The manager and the signal server after one step. -/
def step {H : Type} (codec : pmpb.Codec) (st : SuspendManager × SignalServer H) :
    Step H → SuspendManager × SignalServer H
  | .Register obj suspendHandler resumeHandler =>
    (Register codec obj suspendHandler resumeHandler st.1 st.2).state
  | .handleSuspend signal obj script => ((handleSuspend codec obj script st.1 signal).state, st.2)
  | .handleResume signal script => ((handleResume codec script st.1 signal).state, st.2)

/-- The manager and the signal server after a sequence of steps. -/
def steps {H : Type} (codec : pmpb.Codec) (st : SuspendManager × SignalServer H)
    (ss : List (Step H)) : SuspendManager × SignalServer H :=
  ss.foldl (step codec) st

/-- The peer calls among the events, as (method, arguments). -/
def calls : List Event → List (GoString × List Bytes)
  | [] => []
  | Event.call method args :: es => (method, args) :: calls es
  | _ :: es => calls es

/-- The script runs among the events, by path. -/
def execs : List Event → List GoString
  | [] => []
  | Event.exec path _ :: es => path :: execs es
  | _ :: es => execs es

/-- The calls of `HandleSuspendReadiness` among the events. -/
def readinessCalls (events : List Event) : List (GoString × List Bytes) :=
  (calls events).filter (fun c => c.1 = GetPMMethod methdHandleSuspendReadiness)

end suspend_manager

/-! ## The file system under the configuration directory, and strconv -/

/-- What is at a path: nothing (`os.Lstat` returns an error), a directory, a symbolic
link that leads to a directory (`os.Lstat` finds the link, which is not a directory, and
opening a file below the path follows it), or anything else, below which no file can be
opened. -/
inductive PathKind where
  | absent
  | dir
  | linkToDir
  | notDir
  deriving DecidableEq, Repr

/-- The persistent storage of the daemon: what is at the configuration path, and the
content of each readable file of the directory there, by file name. -/
structure FS where
  config : PathKind
  files : GoString → Option GoString

/-- The entry the daemon would read back: the file's content when the configuration
path is a directory and the file is readable. -/
def FS.stored (fs : FS) (name : GoString) : Option GoString :=
  if fs.config = PathKind.dir then fs.files name else none

/-- Failures of the operating system during one `saveHWConfig`: the error of `os.Mkdir`
and of `ioutil.WriteFile` for a file name, `none` when the operation succeeds, and what a
failed `WriteFile` leaves of the file (nothing, its old content, a truncated one). -/
structure Faults where
  mkdirErr : Option GoError
  writeErr : GoString → Option GoError
  writeLeft : GoString → Option GoString

namespace strconv

/-- The type of `strconv.ParseFloat(s, 64)`: the value and the error it returns.  The
function belongs to the Go library and is an argument of what calls it. -/
abbrev ParseFloatFn := GoString → Float64 × Option GoError

/-- The absolute value of `q` in tenths, rounded to the nearest whole number of tenths
and to the even one when `q` is exactly halfway. -/
def tenths (q : ℚ) : Nat :=
  let scaled := q.num.natAbs * 10
  let n := scaled / q.den
  let r := scaled % q.den
  if 2 * r < q.den then n
  else if 2 * r = q.den then (if n % 2 = 0 then n else n + 1)
  else n + 1

/-- `strconv.FormatFloat(f, 'f', 1, 64)`: the exact value rounded to one decimal, the
sign first when the sign bit is set, and the three names of the values that are not
finite. -/
def FormatFloat (f : Float64) : GoString :=
  match f with
  | .NaN => ascii "NaN"
  | .posInf => ascii "+Inf"
  | .negInf => ascii "-Inf"
  | .negZero => ascii "-0.0"
  | .fin q =>
    let t := tenths q
    (if q < 0 then ascii "-" else []) ++ ascii (Nat.repr (t / 10)) ++ ascii "."
      ++ ascii (Nat.repr (t % 10))

end strconv

namespace pmpb

/-- The enum `BacklightBrightnessChange_Cause` is an `int32`. -/
abbrev BacklightBrightnessChange_Cause := Int

def BacklightBrightnessChange_USER_REQUEST : BacklightBrightnessChange_Cause := 0

structure BacklightBrightnessChange where
  Percent : Float64
  Cause : BacklightBrightnessChange_Cause
  deriving DecidableEq

end pmpb

/-! ## package backlight_manager -/

namespace backlight_manager

open dbusutil

def sigScreenBrightnessChanged : GoString := ascii "ScreenBrightnessChanged"

def sigKeyBoardBrightnessChanged : GoString := ascii "KeyboardBrightnessChanged"

def pathConfig : GoString := ascii "/mnt/stateful_partition/unencrypted/hwconfig"

def fileBrightness : GoString := ascii "ScreenBrightness"

def fileKeyboardBrightness : GoString := ascii "KeyBoardBrightness"

def defaultBrightness : Float64 := .fin 60

def minBrightness : Float64 := .fin 10

/-- The mutable fields of `ScreenBrightnessManager`. -/
structure ScreenBrightnessManager where
  screen_brightness : Float64
  need_store_screen : Bool
  keyboard_brightness : Float64
  need_store_keyboard : Bool
  deriving DecidableEq

/-- `getHWConfig`. -/
def getHWConfig (fs : FS) (name : GoString) : List Event × Except GoError GoString :=
  let ev0 := [Event.log "get config:%s", Event.stat pathConfig]
  if fs.config ≠ PathKind.dir then
    (ev0, .error (.Errorf "%s or %s is not exist" pathConfig))
  else
    let ev1 := [Event.readFile (pathConfig ++ ascii "/" ++ name)]
    match fs.files name with
    | none => (ev0 ++ ev1, .error (.New "ioutil.ReadFile"))
    | some buf => (ev0 ++ ev1 ++ [Event.log "get config:%s, value:%s"], .ok buf)

/-- `saveHWConfig`.  Only the error of `os.Lstat` is looked at, not the kind of what it
found.  A directory that `os.Mkdir` has just made is empty.  `WriteFile` reaches the file
when the configuration path is a directory or a link to one; it fails by a fault of the
system, leaving of the file what the fault leaves, and it fails when no file can be
opened below the path. -/
def saveHWConfig (faults : Faults) (fs : FS) (name : GoString) (value : GoString) :
    Option GoError × FS × List Event :=
  let ev0 := [Event.logSave name value, Event.stat pathConfig]
  let made : Except GoError (FS × List Event) :=
    if fs.config = PathKind.absent then
      match faults.mkdirErr with
      | some e => .error e
      | none => .ok ({ config := PathKind.dir, files := fun _ => none }, [Event.mkdir pathConfig])
    else .ok (fs, [])
  match made with
  | .error e => (some e, fs, ev0 ++ [Event.mkdir pathConfig])
  | .ok (fs1, ev1) =>
    let path := pathConfig ++ ascii "/" ++ name
    let ev2 := [Event.writeFile path value]
    if ¬ (fs1.config = PathKind.dir ∨ fs1.config = PathKind.linkToDir) then
      (some (.New "ioutil.WriteFile"), fs1, ev0 ++ ev1 ++ ev2)
    else
      match faults.writeErr name with
      | some e =>
        (some e,
          { fs1 with files := fun n => if n = name then faults.writeLeft name else fs1.files n },
          ev0 ++ ev1 ++ ev2)
      | none =>
        (none,
          { fs1 with files := fun n => if n = name then some value else fs1.files n },
          ev0 ++ ev1 ++ ev2)

/-- `NewScreenBrightnessManager`.  The error of `strconv.ParseFloat` is discarded: the
field takes the value `ParseFloat` returns whenever the file could be read. -/
def NewScreenBrightnessManager (ParseFloat : strconv.ParseFloatFn) (fs : FS) :
    ScreenBrightnessManager × List Event :=
  let bm0 : ScreenBrightnessManager :=
    { screen_brightness := defaultBrightness, need_store_screen := false,
      keyboard_brightness := .fin 0, need_store_keyboard := false }
  let r1 := getHWConfig fs fileBrightness
  let (bm1, ev1) : ScreenBrightnessManager × List Event :=
    match r1.2 with
    | .ok value =>
      ({ bm0 with screen_brightness := (ParseFloat value).1 },
        [Event.log "read hardware config; screen brightness:%s"])
    | .error _ => (bm0, [Event.log "read error:"])
  let r2 := getHWConfig fs fileKeyboardBrightness
  let (bm2, ev2) : ScreenBrightnessManager × List Event :=
    match r2.2 with
    | .ok value =>
      ({ bm1 with keyboard_brightness := (ParseFloat value).1 },
        [Event.log "read hardware config; keyboard brightness:%s"])
    | .error _ => (bm1, [Event.log "read error:"])
  (bm2, r1.1 ++ ev1 ++ r2.1 ++ ev2)

/-- `HandleSetScreenBrightness`, with the `proto.Unmarshal` of the change message. -/
def HandleSetScreenBrightness (Unmarshal : Bytes → Option pmpb.BacklightBrightnessChange)
    (bm : ScreenBrightnessManager) (signal : Signal) : Result ScreenBrightnessManager :=
  let ev0 := [Event.log "Get Set Screen Brightness signal"]
  match DecodeSignal Unmarshal signal with
  | .error e => { err := some e, state := bm, events := ev0 }
  | .ok brightChg =>
    if brightChg.Cause = pmpb.BacklightBrightnessChange_USER_REQUEST then
      let bm1 : ScreenBrightnessManager :=
        if brightChg.Percent.gt minBrightness && bm.screen_brightness.ne brightChg.Percent then
          { bm with screen_brightness := brightChg.Percent, need_store_screen := true }
        else bm
      { err := none, state := bm1,
        events := ev0 ++ [Event.log "User set screen brightness to %v"] }
    else { err := none, state := bm, events := ev0 }

/-- `HandleSetKeyboardBrightness`, with the `proto.Unmarshal` of the change message. -/
def HandleSetKeyboardBrightness (Unmarshal : Bytes → Option pmpb.BacklightBrightnessChange)
    (bm : ScreenBrightnessManager) (signal : Signal) : Result ScreenBrightnessManager :=
  let ev0 := [Event.log "Get Set Keyboard Brightness signal"]
  match DecodeSignal Unmarshal signal with
  | .error e => { err := some e, state := bm, events := ev0 }
  | .ok brightChg =>
    if brightChg.Cause = pmpb.BacklightBrightnessChange_USER_REQUEST then
      let bm1 : ScreenBrightnessManager :=
        if bm.keyboard_brightness.ne brightChg.Percent then
          { bm with keyboard_brightness := brightChg.Percent, need_store_keyboard := true }
        else bm
      { err := none, state := bm1,
        events := ev0 ++ [Event.log "User set keyboard brightness to %v"] }
    else { err := none, state := bm, events := ev0 }

/-- `UnRegister` (its `sigServer` argument is not used by the Go code).  Each of the two
`saveHWConfig` calls meets its own faults of the system. -/
def UnRegister (faultsScreen faultsKeyboard : Faults) (bm : ScreenBrightnessManager) (fs : FS) :
    Result (ScreenBrightnessManager × FS) :=
  let (fs1, ev1) : FS × List Event :=
    if bm.need_store_screen then
      let r := saveHWConfig faultsScreen fs fileBrightness
        (strconv.FormatFloat bm.screen_brightness)
      (r.2.1, r.2.2 ++ (match r.1 with
                        | some _ => [Event.log "Get error when save %s, error: %w"]
                        | none => []))
    else (fs, [])
  let (fs2, ev2) : FS × List Event :=
    if bm.need_store_keyboard then
      let r := saveHWConfig faultsKeyboard fs1 fileKeyboardBrightness
        (strconv.FormatFloat bm.keyboard_brightness)
      (r.2.1, r.2.2 ++ (match r.1 with
                        | some _ => [Event.log "Get error when save %s, error: %w"]
                        | none => []))
    else (fs1, [])
  { err := none, state := (bm, fs2),
    events := ev1 ++ ev2 ++ [Event.log "Unregister brightness manager"] }

end backlight_manager

/-! ## A small codec and peer on which the statements are evaluated -/

namespace demo

/-- A codec that writes each message as the list of its numbers. -/
def codec : pmpb.Codec where
  MarshalSuspendReadinessInfo := fun r => some [r.DelayId.toNat, r.SuspendId.toNat]
  MarshalRegisterSuspendDelayRequest := fun r => some (r.Timeout.toNat :: r.Description)
  MarshalUnregisterSuspendDelayRequest := fun r => some [r.DelayId.toNat]
  UnmarshalRegisterSuspendDelayReply := fun b =>
    match b with
    | [n] => some { DelayId := n }
    | _ => none
  UnmarshalSuspendImminent := fun b =>
    match b with
    | [n, reason] => some { SuspendId := n, Reason := reason }
    | _ => none
  UnmarshalSuspendDone := fun b =>
    match b with
    | [n, d, w] => some { SuspendId := n, SuspendDuration := d, WakeupType := w }
    | _ => none

/-- A peer that answers every call without error, with a body that is stored as the one
byte `n`. -/
def peer (n : Nat) : BusObject :=
  fun _ _ => { Err := none, Store := .ok [n], ResponseSequence := 1 }

/-- The signal `SuspendImminent` with suspend id `n`. -/
def suspendImminent (n : Nat) : Signal :=
  { Name := dbusutil.GetPMMethod suspend_manager.sigSuspendImminent,
    Body := [Variant.bytes [n, 0]] }

/-- The signal `SuspendDone` with suspend id `n`. -/
def suspendDone (n : Nat) : Signal :=
  { Name := dbusutil.GetPMMethod suspend_manager.sigSuspendDone,
    Body := [Variant.bytes [n, 0, 0]] }

/-- A `proto.Unmarshal` that reads a brightness change from two numbers: the percent
and the cause. -/
def unmarshalChange : Bytes → Option pmpb.BacklightBrightnessChange :=
  fun b =>
    match b with
    | [p, c] => some { Percent := .fin p, Cause := c }
    | _ => none

/-- The signal `ScreenBrightnessChanged` with a percent and a cause. -/
def screenChanged (percent cause : Nat) : Signal :=
  { Name := dbusutil.GetPMMethod backlight_manager.sigScreenBrightnessChanged,
    Body := [Variant.bytes [percent, cause]] }

/-- A stand-in for `strconv.ParseFloat(s, 64)` that agrees with it on the texts "45.0"
and "60.0" and on every text that is not a number, for which it returns 0 and a syntax
error. -/
def ParseFloat : strconv.ParseFloatFn :=
  fun s =>
    if s = ascii "45.0" then (.fin 45, none)
    else if s = ascii "60.0" then (.fin 60, none)
    else (.fin 0, some (.New "strconv.ParseFloat: invalid syntax"))

/-- A storage whose configuration directory exists and holds the one file
`ScreenBrightness` with the given text. -/
def storage (text : GoString) : FS :=
  { config := PathKind.dir,
    files := fun n => if n = backlight_manager.fileBrightness then some text else none }

/-- A hook script that is missing. -/
def missingScript : Script := { statErr := true, run := RunResult.notFound }

/-- A hook script that runs past the deadline. -/
def slowScript : Script := { statErr := false, run := RunResult.timedOut }

end demo

/-! ## Theorems -/

namespace suspend_manager

open dbusutil

theorem calls_append (a b : List Event) : calls (a ++ b) = calls a ++ calls b := by
  induction a with
  | nil => rfl
  | cons e es ih => cases e <;> simp [calls, ih]

theorem execs_append (a b : List Event) : execs (a ++ b) = execs a ++ execs b := by
  induction a with
  | nil => rfl
  | cons e es ih => cases e <;> simp [execs, ih]

/-- A call without out message whose request marshals makes exactly one peer call. -/
theorem CallProtoMethod_events {In : Type} (Marshal : In → Option Bytes) (obj : BusObject)
    (method : GoString) (m : In) (b : Bytes) (h : Marshal m = some b) :
    (CallProtoMethod Marshal obj method (some m) (none : Option (Bytes → Option Unit))).1
      = [Event.call method [b]] := by
  unfold CallProtoMethod CallProtoMethodWithSequence
  simp only [h]
  cases hc : (obj method [b]).Err <;> simp

/-- The error such a call returns is the wrapped error of the peer call. -/
theorem CallProtoMethod_err {In : Type} (Marshal : In → Option Bytes) (obj : BusObject)
    (method : GoString) (m : In) (b : Bytes) (h : Marshal m = some b) :
    (match (CallProtoMethod Marshal obj method (some m)
        (none : Option (Bytes → Option Unit))).2 with
      | .error e => some e
      | .ok _ => none)
      = (obj method [b]).Err.map (GoError.Wrap "failed calling %s, err:%w" method) := by
  unfold CallProtoMethod CallProtoMethodWithSequence
  simp only [h]
  cases hc : (obj method [b]).Err <;> simp

theorem sendSuspendReadiness_events (codec : pmpb.Codec) (obj : BusObject)
    (manager : SuspendManager) (b : Bytes)
    (h : codec.MarshalSuspendReadinessInfo
      { DelayId := manager.delay_id, SuspendId := manager.suspend_id } = some b) :
    (sendSuspendReadiness codec obj manager).1
      = [Event.call (GetPMMethod methdHandleSuspendReadiness) [b]] := by
  unfold sendSuspendReadiness
  exact CallProtoMethod_events _ obj _ _ b h

/-- What `handleSuspend` does when it is not in a delay and the body decodes. -/
theorem handleSuspend_accept (codec : pmpb.Codec) (obj : BusObject) (script : Script)
    (manager : SuspendManager) (signal : Signal) (info : pmpb.SuspendImminent) (b : Bytes)
    (hd : manager.on_suspend_delay = false)
    (hs : DecodeSignal codec.UnmarshalSuspendImminent signal = .ok info)
    (hm : codec.MarshalSuspendReadinessInfo
      { DelayId := manager.delay_id, SuspendId := info.SuspendId } = some b) :
    (handleSuspend codec obj script manager signal).err = none ∧
    (handleSuspend codec obj script manager signal).state
      = { manager with suspend_id := info.SuspendId, on_suspend_delay := true } ∧
    calls (handleSuspend codec obj script manager signal).events
      = [(GetPMMethod methdHandleSuspendReadiness, [b])] ∧
    execs (handleSuspend codec obj script manager signal).events = [pathPreSuspendScript] := by
  have hsend := sendSuspendReadiness_events codec obj
    { manager with suspend_id := info.SuspendId, on_suspend_delay := true } b hm
  unfold handleSuspend
  simp only [hd, hs, Bool.false_eq_true, if_false, hsend]
  obtain ⟨statErr, run⟩ := script
  cases statErr <;> cases run <;> simp [calls, execs]

theorem handleSuspend_reject_busy (codec : pmpb.Codec) (obj : BusObject) (script : Script)
    (manager : SuspendManager) (signal : Signal) (hd : manager.on_suspend_delay = true) :
    handleSuspend codec obj script manager signal
      = { err := some (.New "system is already in suspend state"), state := manager,
          events := [Event.log "Received Suspend signal"] } := by
  unfold handleSuspend
  simp [hd]

theorem handleSuspend_reject_decode (codec : pmpb.Codec) (obj : BusObject) (script : Script)
    (manager : SuspendManager) (signal : Signal) (e : GoError)
    (hd : manager.on_suspend_delay = false)
    (hs : DecodeSignal codec.UnmarshalSuspendImminent signal = .error e) :
    handleSuspend codec obj script manager signal
      = { err := some e, state := manager, events := [Event.log "Received Suspend signal"] } := by
  unfold handleSuspend
  simp [hd, hs]


theorem handleResume_reject_idle (codec : pmpb.Codec) (script : Script)
    (manager : SuspendManager) (signal : Signal) (hd : manager.on_suspend_delay = false) :
    handleResume codec script manager signal
      = { err := some (.New "system is not in suspend state"), state := manager,
          events := [Event.log "Received Resume signal"] } := by
  unfold handleResume
  simp [hd]

theorem handleResume_accept (codec : pmpb.Codec) (script : Script)
    (manager : SuspendManager) (signal : Signal) (info : pmpb.SuspendDone)
    (hd : manager.on_suspend_delay = true)
    (hs : DecodeSignal codec.UnmarshalSuspendDone signal = .ok info) :
    (handleResume codec script manager signal).err = none ∧
    (handleResume codec script manager signal).state
      = { manager with suspend_id := 0, on_suspend_delay := false } ∧
    calls (handleResume codec script manager signal).events = [] ∧
    execs (handleResume codec script manager signal).events = [pathPostResumeScript] := by
  unfold handleResume
  simp only [hd, hs, Bool.not_true, Bool.false_eq_true, if_false]
  obtain ⟨statErr, run⟩ := script
  by_cases hid : info.SuspendId = manager.suspend_id <;>
    cases statErr <;> cases run <;> simp [calls, execs, hid]

/-- The resume handler never calls the peer. -/
theorem handleResume_calls (codec : pmpb.Codec) (script : Script)
    (manager : SuspendManager) (signal : Signal) :
    calls (handleResume codec script manager signal).events = [] := by
  cases hd : manager.on_suspend_delay with
  | false => rw [handleResume_reject_idle codec script manager signal hd]; rfl
  | true =>
    cases hs : DecodeSignal codec.UnmarshalSuspendDone signal with
    | ok info => exact (handleResume_accept codec script manager signal info hd hs).2.2.1
    | error e =>
      unfold handleResume
      simp [hd, hs, calls]

theorem readinessCalls_append (a b : List Event) :
    readinessCalls (a ++ b) = readinessCalls a ++ readinessCalls b := by
  simp [readinessCalls, calls_append]

/-- One notification adds one readiness call exactly when it is an accepted suspend
notification. -/
theorem deliver_readinessCalls (codec : pmpb.Codec)
    (hm : ∀ req, codec.MarshalSuspendReadinessInfo req ≠ none)
    (manager : SuspendManager) (n : Notification) :
    (readinessCalls (deliver codec manager n).events).length
      = acceptedSuspends codec manager [n] := by
  cases n with
  | SuspendDone signal script =>
    simp [acceptedSuspends, deliver, readinessCalls, handleResume_calls]
  | SuspendImminent signal obj script =>
    simp only [acceptedSuspends, deliver, Nat.add_zero]
    cases hd : manager.on_suspend_delay with
    | true =>
      simp [handleSuspend_reject_busy codec obj script manager signal hd, readinessCalls, calls]
    | false =>
      cases hs : DecodeSignal codec.UnmarshalSuspendImminent signal with
      | error e =>
        simp [handleSuspend_reject_decode codec obj script manager signal e hd hs,
          readinessCalls, calls]
      | ok info =>
        obtain ⟨b, hb⟩ := Option.ne_none_iff_exists'.mp
          (hm { DelayId := manager.delay_id, SuspendId := info.SuspendId })
        have h := handleSuspend_accept codec obj script manager signal info b hd hs hb
        simp [readinessCalls, h.1, h.2.2.1]

theorem acceptedSuspends_cons (codec : pmpb.Codec) (manager : SuspendManager)
    (n : Notification) (ns : List Notification) :
    acceptedSuspends codec manager (n :: ns)
      = acceptedSuspends codec manager [n]
        + acceptedSuspends codec (deliver codec manager n).state ns := by
  simp [acceptedSuspends]

/-- C1: when the manager is not in a suspend delay and the body of the SuspendImminent
signal decodes, handleSuspend returns nil and makes exactly one peer call, which is
HandleSuspendReadiness with the manager's delay id and the suspend id of the notification,
whatever the pre-suspend hook does (missing, failing, timed out or fine); afterwards
on_suspend_delay is true and suspend_id is the notification's.  Over any sequence of
notifications the readiness calls are as many as the accepted suspend notifications.
The readiness request is taken to be one that proto.Marshal encodes. -/
theorem handleSuspend_readiness_once_per_accepted (codec : pmpb.Codec) :
    (∀ (obj : BusObject) (script : Script) (manager : SuspendManager) (signal : Signal)
        (info : pmpb.SuspendImminent) (b : Bytes),
      manager.on_suspend_delay = false →
      DecodeSignal codec.UnmarshalSuspendImminent signal = .ok info →
      codec.MarshalSuspendReadinessInfo
        { DelayId := manager.delay_id, SuspendId := info.SuspendId } = some b →
      (handleSuspend codec obj script manager signal).err = none ∧
      calls (handleSuspend codec obj script manager signal).events
        = [(GetPMMethod methdHandleSuspendReadiness, [b])] ∧
      (handleSuspend codec obj script manager signal).state.on_suspend_delay = true ∧
      (handleSuspend codec obj script manager signal).state.suspend_id = info.SuspendId ∧
      (handleSuspend codec obj script manager signal).state.delay_id = manager.delay_id) ∧
    ((∀ req, codec.MarshalSuspendReadinessInfo req ≠ none) →
      ∀ (manager : SuspendManager) (ns : List Notification),
        (readinessCalls (deliverAll codec manager ns).2).length
          = acceptedSuspends codec manager ns) := by
  refine ⟨?_, ?_⟩
  · intro obj script manager signal info b hd hs hm
    have h := handleSuspend_accept codec obj script manager signal info b hd hs hm
    refine ⟨h.1, h.2.2.1, ?_, ?_, ?_⟩ <;> rw [h.2.1]
  · intro hm manager ns
    induction ns generalizing manager with
    | nil => rfl
    | cons n ns ih =>
      rw [acceptedSuspends_cons, ← ih, ← deliver_readinessCalls codec hm]
      simp [deliverAll, readinessCalls_append]

/-- C1 at a manager with delay id 3 and a notification with suspend id 7 whose hook times
out, and over a sequence of a suspend, a second suspend, a resume and a third suspend. -/
theorem handleSuspend_readiness_once_per_accepted_witness :
    (({ delay_id := 3, suspend_id := 0, on_suspend_delay := false } :
          SuspendManager).on_suspend_delay = false ∧
      DecodeSignal demo.codec.UnmarshalSuspendImminent (demo.suspendImminent 7)
        = .ok { SuspendId := 7, Reason := 0 } ∧
      demo.codec.MarshalSuspendReadinessInfo { DelayId := 3, SuspendId := 7 } = some [3, 7] ∧
      calls (handleSuspend demo.codec (demo.peer 0) demo.slowScript
          { delay_id := 3, suspend_id := 0, on_suspend_delay := false }
          (demo.suspendImminent 7)).events
        = [(GetPMMethod methdHandleSuspendReadiness, [[3, 7]])]) ∧
    (readinessCalls (deliverAll demo.codec NewSuspendManager
        [Notification.SuspendImminent (demo.suspendImminent 7) (demo.peer 0) demo.missingScript,
         Notification.SuspendImminent (demo.suspendImminent 8) (demo.peer 0) demo.slowScript,
         Notification.SuspendDone (demo.suspendDone 7) demo.slowScript,
         Notification.SuspendImminent (demo.suspendImminent 9) (demo.peer 0)
           demo.slowScript]).2).length = 2 :=
  ⟨⟨rfl, rfl, rfl,
    ((handleSuspend_readiness_once_per_accepted demo.codec).1 (demo.peer 0) demo.slowScript
      { delay_id := 3, suspend_id := 0, on_suspend_delay := false } (demo.suspendImminent 7)
      { SuspendId := 7, Reason := 0 } [3, 7] rfl rfl rfl).2.1⟩,
   ((handleSuspend_readiness_once_per_accepted demo.codec).2
      (by intro req; simp [demo.codec]) _ _).trans (by decide)⟩

/-- C2: while on_suspend_delay is true, handleSuspend returns the error "system is already
in suspend state" for any signal, leaves suspend_id, on_suspend_delay and delay_id as
they were, runs no script and makes no peer call. -/
theorem handleSuspend_rejected_while_in_delay (codec : pmpb.Codec) (obj : BusObject)
    (script : Script) (manager : SuspendManager) (signal : Signal)
    (hd : manager.on_suspend_delay = true) :
    (handleSuspend codec obj script manager signal).err
      = some (GoError.New "system is already in suspend state") ∧
    (handleSuspend codec obj script manager signal).state = manager ∧
    execs (handleSuspend codec obj script manager signal).events = [] ∧
    calls (handleSuspend codec obj script manager signal).events = [] := by
  rw [handleSuspend_reject_busy codec obj script manager signal hd]
  exact ⟨rfl, rfl, rfl, rfl⟩

/-- C2 at a manager in the delay of suspend 7 that receives suspend 8. -/
theorem handleSuspend_rejected_while_in_delay_witness :
    (handleSuspend demo.codec (demo.peer 0) demo.slowScript
        { delay_id := 3, suspend_id := 7, on_suspend_delay := true }
        (demo.suspendImminent 8)).state
      = { delay_id := 3, suspend_id := 7, on_suspend_delay := true } :=
  (handleSuspend_rejected_while_in_delay demo.codec (demo.peer 0) demo.slowScript
    { delay_id := 3, suspend_id := 7, on_suspend_delay := true } (demo.suspendImminent 8)
    rfl).2.1

/-- C3: while on_suspend_delay is false, handleResume returns the error "system is not in
suspend state" for any signal, leaves suspend_id, on_suspend_delay and delay_id as they
were and runs no script. -/
theorem handleResume_rejected_while_idle (codec : pmpb.Codec) (script : Script)
    (manager : SuspendManager) (signal : Signal) (hd : manager.on_suspend_delay = false) :
    (handleResume codec script manager signal).err
      = some (GoError.New "system is not in suspend state") ∧
    (handleResume codec script manager signal).state = manager ∧
    execs (handleResume codec script manager signal).events = [] := by
  rw [handleResume_reject_idle codec script manager signal hd]
  exact ⟨rfl, rfl, rfl⟩

/-- C3 at a fresh manager that receives SuspendDone for suspend 7. -/
theorem handleResume_rejected_while_idle_witness :
    (handleResume demo.codec demo.slowScript NewSuspendManager (demo.suspendDone 7)).state
      = NewSuspendManager ∧
    execs (handleResume demo.codec demo.slowScript NewSuspendManager
      (demo.suspendDone 7)).events = [] :=
  (handleResume_rejected_while_idle demo.codec demo.slowScript NewSuspendManager
    (demo.suspendDone 7) rfl).2

/-- C4: while on_suspend_delay is true, handleResume on a SuspendDone signal whose body
decodes returns nil and leaves on_suspend_delay false, suspend_id 0 and delay_id as it
was, for any received suspend id (equal to the stored one or not) and any outcome of the
post-resume hook. -/
theorem handleResume_closes_session (codec : pmpb.Codec) (script : Script)
    (manager : SuspendManager) (signal : Signal) (info : pmpb.SuspendDone)
    (hd : manager.on_suspend_delay = true)
    (hs : DecodeSignal codec.UnmarshalSuspendDone signal = .ok info) :
    (handleResume codec script manager signal).err = none ∧
    (handleResume codec script manager signal).state.on_suspend_delay = false ∧
    (handleResume codec script manager signal).state.suspend_id = 0 ∧
    (handleResume codec script manager signal).state.delay_id = manager.delay_id := by
  have h := handleResume_accept codec script manager signal info hd hs
  refine ⟨h.1, ?_, ?_, ?_⟩ <;> rw [h.2.1]

/-- C4 at a manager in the delay of suspend 7 that receives SuspendDone for suspend 9
while the post-resume script is missing. -/
theorem handleResume_closes_session_witness :
    DecodeSignal demo.codec.UnmarshalSuspendDone (demo.suspendDone 9)
      = .ok { SuspendId := 9, SuspendDuration := 0, WakeupType := 0 } ∧
    (handleResume demo.codec demo.missingScript
        { delay_id := 3, suspend_id := 7, on_suspend_delay := true }
        (demo.suspendDone 9)).state.on_suspend_delay = false ∧
    (handleResume demo.codec demo.missingScript
        { delay_id := 3, suspend_id := 7, on_suspend_delay := true }
        (demo.suspendDone 9)).state.suspend_id = 0 :=
  ⟨rfl,
    (handleResume_closes_session demo.codec demo.missingScript
      { delay_id := 3, suspend_id := 7, on_suspend_delay := true } (demo.suspendDone 9)
      { SuspendId := 9, SuspendDuration := 0, WakeupType := 0 } rfl rfl).2.1,
    (handleResume_closes_session demo.codec demo.missingScript
      { delay_id := 3, suspend_id := 7, on_suspend_delay := true } (demo.suspendDone 9)
      { SuspendId := 9, SuspendDuration := 0, WakeupType := 0 } rfl rfl).2.2.1⟩


/-- A successful `Register` has marshalled its request, got an answer without error
whose body `Store` turned into bytes that unmarshal to a reply, and has stored the delay
id of that reply. -/
theorem Register_ok {H : Type} (codec : pmpb.Codec) (obj : BusObject) (sh rh : H)
    (manager : SuspendManager) (srv : SignalServer H)
    (h : (Register codec obj sh rh manager srv).err = none) :
    ∃ (a body : Bytes) (reply : pmpb.RegisterSuspendDelayReply),
      codec.MarshalRegisterSuspendDelayRequest
        { Timeout := execTimeout, Description := serverDescription } = some a ∧
      (obj (GetPMMethod methdRegisterSuspendDelay) [a]).Err = none ∧
      (obj (GetPMMethod methdRegisterSuspendDelay) [a]).Store = .ok body ∧
      codec.UnmarshalRegisterSuspendDelayReply body = some reply ∧
      (Register codec obj sh rh manager srv).state.1
        = { manager with delay_id := reply.DelayId } := by
  unfold Register CallProtoMethod CallProtoMethodWithSequence at h ⊢
  cases hM : codec.MarshalRegisterSuspendDelayRequest
      { Timeout := execTimeout, Description := serverDescription } with
  | none => simp [hM] at h
  | some a =>
    simp only [hM] at h ⊢
    cases hE : (obj (GetPMMethod methdRegisterSuspendDelay) [a]).Err with
    | some e => simp [hE] at h
    | none =>
      simp only [hE] at h ⊢
      cases hS : (obj (GetPMMethod methdRegisterSuspendDelay) [a]).Store with
      | error e => simp [hS] at h
      | ok body =>
        simp only [hS] at h ⊢
        cases hU : codec.UnmarshalRegisterSuspendDelayReply body with
        | none => simp [hU] at h
        | some reply =>
          exact ⟨a, body, reply, rfl, hE, hS, hU, by simp [hU]⟩

/-- `Register` succeeds, and stores the delay id of the reply, whenever its request
marshals, the call has no error, `Store` yields bytes and they unmarshal to a reply. -/
theorem Register_succeeds {H : Type} (codec : pmpb.Codec) (obj : BusObject) (sh rh : H)
    (manager : SuspendManager) (srv : SignalServer H) (a body : Bytes)
    (reply : pmpb.RegisterSuspendDelayReply)
    (hM : codec.MarshalRegisterSuspendDelayRequest
      { Timeout := execTimeout, Description := serverDescription } = some a)
    (hE : (obj (GetPMMethod methdRegisterSuspendDelay) [a]).Err = none)
    (hS : (obj (GetPMMethod methdRegisterSuspendDelay) [a]).Store = .ok body)
    (hU : codec.UnmarshalRegisterSuspendDelayReply body = some reply) :
    (Register codec obj sh rh manager srv).err = none ∧
    (Register codec obj sh rh manager srv).state.1
      = { manager with delay_id := reply.DelayId } := by
  unfold Register CallProtoMethod CallProtoMethodWithSequence
  simp [hM, hE, hS, hU]

/-- A failed `Register` leaves the manager as it was. -/
theorem Register_failed {H : Type} (codec : pmpb.Codec) (obj : BusObject) (sh rh : H)
    (manager : SuspendManager) (srv : SignalServer H)
    (h : (Register codec obj sh rh manager srv).err ≠ none) :
    (Register codec obj sh rh manager srv).state.1 = manager := by
  simp only [Register] at h ⊢
  cases hr : (CallProtoMethod codec.MarshalRegisterSuspendDelayRequest obj
    (GetPMMethod methdRegisterSuspendDelay)
    (some ({ Timeout := execTimeout, Description := serverDescription } :
      pmpb.RegisterSuspendDelayRequest))
    (some codec.UnmarshalRegisterSuspendDelayReply)).2 with
  | error e => simp only [hr]
  | ok rsp => simp [hr] at h

theorem UnRegister_token (codec : pmpb.Codec) (obj : BusObject) (manager : SuspendManager)
    (b : Bytes) (hne : manager.delay_id ≠ 0)
    (hm : codec.MarshalUnregisterSuspendDelayRequest { DelayId := manager.delay_id } = some b) :
    calls (UnRegister codec obj manager).events
      = [(GetPMMethod methdUnregisterSuspendDelay, [b])] ∧
    (UnRegister codec obj manager).err
      = (obj (GetPMMethod methdUnregisterSuspendDelay) [b]).Err.map
          (GoError.Wrap "failed calling %s, err:%w" (GetPMMethod methdUnregisterSuspendDelay)) ∧
    (UnRegister codec obj manager).state = manager := by
  have hev := CallProtoMethod_events codec.MarshalUnregisterSuspendDelayRequest obj
    (GetPMMethod methdUnregisterSuspendDelay) { DelayId := manager.delay_id } b hm
  have herr := CallProtoMethod_err codec.MarshalUnregisterSuspendDelayRequest obj
    (GetPMMethod methdUnregisterSuspendDelay) { DelayId := manager.delay_id } b hm
  unfold UnRegister
  simp only [bne_iff_ne, ne_eq, hne, not_false_eq_true, if_true, hev, herr]
  simp [calls]

theorem UnRegister_no_token (codec : pmpb.Codec) (obj : BusObject) (manager : SuspendManager)
    (h0 : manager.delay_id = 0) :
    (UnRegister codec obj manager).events = [] ∧ (UnRegister codec obj manager).err = none ∧
    (UnRegister codec obj manager).state = manager := by
  unfold UnRegister
  simp [h0]

/-- C5 as stated fails for the token 0: the peer answers RegisterSuspendDelay with delay
id 0, Register succeeds and stores it, and UnRegister makes no call at all. -/
theorem UnRegister_token_zero_not_released :
    (Register demo.codec (demo.peer 0) () () NewSuspendManager NewSignalServer).err = none ∧
    (Register demo.codec (demo.peer 0) () () NewSuspendManager NewSignalServer).state.1.delay_id
      = 0 ∧
    calls (UnRegister demo.codec (demo.peer 0)
      (Register demo.codec (demo.peer 0) () () NewSuspendManager NewSignalServer).state.1).events
      = [] := by
  decide

/-- C5 (amended): a successful Register stores the delay id of the peer's reply and a
failed one leaves the manager as it was.  For a manager whose delay id is not 0,
UnRegister makes exactly one peer call, UnregisterSuspendDelay with that delay id, and
returns nil when the call has no error and the call's error (wrapped) otherwise.  For a
manager whose delay id is 0, which is the case when Register was not run, when it failed,
and when the peer replied with the token 0, UnRegister makes no call and returns nil.
Register returns nil exactly when its request marshals, the call has no error, the reply
body is stored as bytes and the bytes unmarshal to a reply; the token it stores is the
delay id of that reply.  The unregister request is taken to be one that proto.Marshal
encodes. -/
theorem UnRegister_releases_nonzero_token (codec : pmpb.Codec) (obj : BusObject)
    (manager : SuspendManager) :
    (∀ (b : Bytes), manager.delay_id ≠ 0 →
      codec.MarshalUnregisterSuspendDelayRequest { DelayId := manager.delay_id } = some b →
      calls (UnRegister codec obj manager).events
        = [(GetPMMethod methdUnregisterSuspendDelay, [b])] ∧
      (UnRegister codec obj manager).err
        = (obj (GetPMMethod methdUnregisterSuspendDelay) [b]).Err.map
            (GoError.Wrap "failed calling %s, err:%w"
              (GetPMMethod methdUnregisterSuspendDelay))) ∧
    (manager.delay_id = 0 →
      (UnRegister codec obj manager).events = [] ∧ (UnRegister codec obj manager).err = none) ∧
    NewSuspendManager.delay_id = 0 ∧
    (∀ (H : Type) (obj1 : BusObject) (sh rh : H) (m0 : SuspendManager) (srv : SignalServer H),
      ((Register codec obj1 sh rh m0 srv).err ≠ none →
        (Register codec obj1 sh rh m0 srv).state.1 = m0) ∧
      ((Register codec obj1 sh rh m0 srv).err = none →
        ∃ (a body : Bytes) (reply : pmpb.RegisterSuspendDelayReply),
          codec.MarshalRegisterSuspendDelayRequest
            { Timeout := execTimeout, Description := serverDescription } = some a ∧
          (obj1 (GetPMMethod methdRegisterSuspendDelay) [a]).Err = none ∧
          (obj1 (GetPMMethod methdRegisterSuspendDelay) [a]).Store = .ok body ∧
          codec.UnmarshalRegisterSuspendDelayReply body = some reply ∧
          (Register codec obj1 sh rh m0 srv).state.1.delay_id = reply.DelayId) ∧
      (∀ (a body : Bytes) (reply : pmpb.RegisterSuspendDelayReply),
        codec.MarshalRegisterSuspendDelayRequest
          { Timeout := execTimeout, Description := serverDescription } = some a →
        (obj1 (GetPMMethod methdRegisterSuspendDelay) [a]).Err = none →
        (obj1 (GetPMMethod methdRegisterSuspendDelay) [a]).Store = .ok body →
        codec.UnmarshalRegisterSuspendDelayReply body = some reply →
        (Register codec obj1 sh rh m0 srv).err = none ∧
        (Register codec obj1 sh rh m0 srv).state.1.delay_id = reply.DelayId)) := by
  refine ⟨?_, ?_, rfl, ?_⟩
  · intro b hne hm
    exact ⟨(UnRegister_token codec obj manager b hne hm).1,
      (UnRegister_token codec obj manager b hne hm).2.1⟩
  · intro h0
    exact ⟨(UnRegister_no_token codec obj manager h0).1,
      (UnRegister_no_token codec obj manager h0).2.1⟩
  · intro H obj1 sh rh m0 srv
    refine ⟨Register_failed codec obj1 sh rh m0 srv, ?_, ?_⟩
    · intro hok
      obtain ⟨a, body, reply, hM, hE, hS, hU, hst⟩ := Register_ok codec obj1 sh rh m0 srv hok
      exact ⟨a, body, reply, hM, hE, hS, hU, by rw [hst]⟩
    · intro a body reply hM hE hS hU
      have h := Register_succeeds codec obj1 sh rh m0 srv a body reply hM hE hS hU
      exact ⟨h.1, by rw [h.2]⟩

/-- C5 (amended) after a Register that the peer answered with the token 5, when the
UnregisterSuspendDelay call fails. -/
theorem UnRegister_releases_nonzero_token_witness :
    (Register demo.codec (demo.peer 5) () () NewSuspendManager NewSignalServer).state.1.delay_id
      ≠ 0 ∧
    demo.codec.MarshalUnregisterSuspendDelayRequest { DelayId := 5 } = some [5] ∧
    calls (UnRegister demo.codec
        (fun _ _ =>
          { Err := some (.New "no reply"), Store := .error (.New "no reply"),
            ResponseSequence := 2 })
        (Register demo.codec (demo.peer 5) () () NewSuspendManager NewSignalServer).state.1).events
      = [(GetPMMethod methdUnregisterSuspendDelay, [[5]])] ∧
    (UnRegister demo.codec
        (fun _ _ =>
          { Err := some (.New "no reply"), Store := .error (.New "no reply"),
            ResponseSequence := 2 })
        (Register demo.codec (demo.peer 5) () () NewSuspendManager NewSignalServer).state.1).err
      = some (GoError.Wrap "failed calling %s, err:%w" (GetPMMethod methdUnregisterSuspendDelay)
          (.New "no reply")) :=
  ⟨by decide, rfl,
    (UnRegister_releases_nonzero_token demo.codec
      (fun _ _ =>
          { Err := some (.New "no reply"), Store := .error (.New "no reply"),
            ResponseSequence := 2 })
      (Register demo.codec (demo.peer 5) () () NewSuspendManager NewSignalServer).state.1).1
      [5] (by decide) rfl⟩

end suspend_manager

namespace backlight_manager

open dbusutil

/-- Above the floor a percent is a number, and then Go's `!=` is plain inequality. -/
theorem ne_of_gt_min (cur p : Float64) (hp : p.gt minBrightness = true) :
    cur.ne p = true ↔ p ≠ cur := by
  cases p with
  | NaN => simp [Float64.gt, Float64.rank] at hp
  | posInf => cases cur <;> simp [Float64.ne, Float64.rank, Prod.ext_iff]
  | negInf => simp [Float64.gt, Float64.rank, minBrightness] at hp
  | negZero => norm_num [Float64.gt, Float64.rank, minBrightness] at hp
  | fin q =>
    have hq : (10 : ℚ) < q := by simpa [Float64.gt, Float64.rank, minBrightness] using hp
    have hq0 : q ≠ 0 := by
      intro h
      rw [h] at hq
      exact absurd hq (by norm_num)
    cases cur with
    | NaN => simp [Float64.ne, Float64.rank]
    | posInf => simp [Float64.ne, Float64.rank]
    | negInf => simp [Float64.ne, Float64.rank]
    | negZero => simp [Float64.ne, Float64.rank, Prod.ext_iff, Ne.symm hq0]
    | fin c =>
      simp only [Float64.ne, Float64.rank, ne_eq, Prod.mk.injEq, true_and, decide_eq_true_eq,
        Float64.fin.injEq]
      exact ⟨fun h e => h e.symm, fun h e => h e.symm⟩

/-- A percent at or below the floor is not above it. -/
theorem not_gt_of_le (p : Float64) (hp : p.le minBrightness = true) :
    p.gt minBrightness = false := by
  cases p <;> simp_all [Float64.gt, Float64.le, Float64.rank, minBrightness]

theorem HandleSetScreenBrightness_state (Unmarshal : Bytes → Option pmpb.BacklightBrightnessChange)
    (bm : ScreenBrightnessManager) (signal : Signal) (chg : pmpb.BacklightBrightnessChange)
    (hd : DecodeSignal Unmarshal signal = .ok chg) :
    (HandleSetScreenBrightness Unmarshal bm signal).state
      = if chg.Cause = pmpb.BacklightBrightnessChange_USER_REQUEST
            ∧ chg.Percent.gt minBrightness = true ∧ bm.screen_brightness.ne chg.Percent = true
        then { bm with screen_brightness := chg.Percent, need_store_screen := true }
        else bm := by
  unfold HandleSetScreenBrightness
  simp only [hd]
  by_cases hc : chg.Cause = pmpb.BacklightBrightnessChange_USER_REQUEST
  · by_cases h1 : chg.Percent.gt minBrightness = true <;>
      by_cases h2 : bm.screen_brightness.ne chg.Percent = true <;> simp [hc, h1, h2]
  · simp [hc]

theorem HandleSetKeyboardBrightness_state
    (Unmarshal : Bytes → Option pmpb.BacklightBrightnessChange)
    (bm : ScreenBrightnessManager) (signal : Signal) (chg : pmpb.BacklightBrightnessChange)
    (hd : DecodeSignal Unmarshal signal = .ok chg) :
    (HandleSetKeyboardBrightness Unmarshal bm signal).state
      = if chg.Cause = pmpb.BacklightBrightnessChange_USER_REQUEST
            ∧ bm.keyboard_brightness.ne chg.Percent = true
        then { bm with keyboard_brightness := chg.Percent, need_store_keyboard := true }
        else bm := by
  unfold HandleSetKeyboardBrightness
  simp only [hd]
  by_cases hc : chg.Cause = pmpb.BacklightBrightnessChange_USER_REQUEST
  · by_cases h2 : bm.keyboard_brightness.ne chg.Percent = true <;> simp [hc, h2]
  · simp [hc]

/-- C6: a brightness-change signal whose decoded cause is not USER_REQUEST, and a signal
whose body does not decode, leave screen_brightness, keyboard_brightness,
need_store_screen and need_store_keyboard as they were, in HandleSetScreenBrightness and
in HandleSetKeyboardBrightness. -/
theorem brightness_kept_unless_user_request
    (Unmarshal : Bytes → Option pmpb.BacklightBrightnessChange)
    (bm : ScreenBrightnessManager) (signal : Signal) :
    (∀ chg : pmpb.BacklightBrightnessChange,
      DecodeSignal Unmarshal signal = .ok chg →
      chg.Cause ≠ pmpb.BacklightBrightnessChange_USER_REQUEST →
      (HandleSetScreenBrightness Unmarshal bm signal).state = bm ∧
      (HandleSetKeyboardBrightness Unmarshal bm signal).state = bm) ∧
    (∀ e : GoError,
      DecodeSignal Unmarshal signal = .error e →
      (HandleSetScreenBrightness Unmarshal bm signal).state = bm ∧
      (HandleSetKeyboardBrightness Unmarshal bm signal).state = bm) := by
  refine ⟨?_, ?_⟩
  · intro chg hd hc
    rw [HandleSetScreenBrightness_state Unmarshal bm signal chg hd,
      HandleSetKeyboardBrightness_state Unmarshal bm signal chg hd]
    simp [hc]
  · intro e hd
    unfold HandleSetScreenBrightness HandleSetKeyboardBrightness
    simp [hd]

/-- C6 at a change to 45 percent with cause 3, and at a signal without body. -/
theorem brightness_kept_unless_user_request_witness :
    (DecodeSignal demo.unmarshalChange (demo.screenChanged 45 3)
        = .ok { Percent := .fin 45, Cause := 3 } ∧
      (HandleSetScreenBrightness demo.unmarshalChange
          { screen_brightness := .fin 60, need_store_screen := false,
            keyboard_brightness := .fin 0, need_store_keyboard := false }
          (demo.screenChanged 45 3)).state
        = { screen_brightness := .fin 60, need_store_screen := false,
            keyboard_brightness := .fin 0, need_store_keyboard := false }) ∧
    (HandleSetKeyboardBrightness demo.unmarshalChange
        { screen_brightness := .fin 60, need_store_screen := false,
          keyboard_brightness := .fin 0, need_store_keyboard := false }
        { Name := GetPMMethod sigKeyBoardBrightnessChanged, Body := [] }).state
      = { screen_brightness := .fin 60, need_store_screen := false,
          keyboard_brightness := .fin 0, need_store_keyboard := false } :=
  ⟨⟨by simp [DecodeSignal, demo.screenChanged, demo.unmarshalChange],
    ((brightness_kept_unless_user_request demo.unmarshalChange _ (demo.screenChanged 45 3)).1
      { Percent := .fin 45, Cause := 3 }
      (by simp [DecodeSignal, demo.screenChanged, demo.unmarshalChange])
      (by decide)).1⟩,
   ((brightness_kept_unless_user_request demo.unmarshalChange _
      { Name := GetPMMethod sigKeyBoardBrightnessChanged, Body := [] }).2
      (.New "signal lacked a body") rfl).2⟩

/-- C7: for a ScreenBrightnessChanged signal that decodes to percent p and cause c,
HandleSetScreenBrightness changes the manager if and only if c is USER_REQUEST, p > 10
and p differs from the current screen_brightness; when it changes it, screen_brightness
becomes p and need_store_screen becomes true; the keyboard fields are never changed; a
percent that is not above 10, in particular one with p <= 10, leaves the manager as it
was.  Above the floor, differing in the sense of Go's != and being another value are the
same. -/
theorem HandleSetScreenBrightness_changes_iff
    (Unmarshal : Bytes → Option pmpb.BacklightBrightnessChange)
    (bm : ScreenBrightnessManager) (signal : Signal) (chg : pmpb.BacklightBrightnessChange)
    (hd : DecodeSignal Unmarshal signal = .ok chg) :
    ((HandleSetScreenBrightness Unmarshal bm signal).state ≠ bm ↔
      (chg.Cause = pmpb.BacklightBrightnessChange_USER_REQUEST ∧
        chg.Percent.gt minBrightness = true ∧ chg.Percent ≠ bm.screen_brightness)) ∧
    ((HandleSetScreenBrightness Unmarshal bm signal).state ≠ bm →
      (HandleSetScreenBrightness Unmarshal bm signal).state.screen_brightness = chg.Percent ∧
      (HandleSetScreenBrightness Unmarshal bm signal).state.need_store_screen = true) ∧
    (HandleSetScreenBrightness Unmarshal bm signal).state.keyboard_brightness
      = bm.keyboard_brightness ∧
    (HandleSetScreenBrightness Unmarshal bm signal).state.need_store_keyboard
      = bm.need_store_keyboard ∧
    (chg.Percent.le minBrightness = true →
      (HandleSetScreenBrightness Unmarshal bm signal).state = bm) ∧
    (chg.Percent.gt minBrightness = true →
      (bm.screen_brightness.ne chg.Percent = true ↔ chg.Percent ≠ bm.screen_brightness)) := by
  rw [HandleSetScreenBrightness_state Unmarshal bm signal chg hd]
  have hlast := ne_of_gt_min bm.screen_brightness chg.Percent
  by_cases hcond : chg.Cause = pmpb.BacklightBrightnessChange_USER_REQUEST
      ∧ chg.Percent.gt minBrightness = true ∧ bm.screen_brightness.ne chg.Percent = true
  · rw [if_pos hcond]
    obtain ⟨hc, h1, h2⟩ := hcond
    have h3 : chg.Percent ≠ bm.screen_brightness := (hlast h1).mp h2
    have h4 : ({ bm with screen_brightness := chg.Percent, need_store_screen := true } :
        ScreenBrightnessManager) ≠ bm := by
      intro h
      exact h3 (congrArg ScreenBrightnessManager.screen_brightness h)
    refine ⟨⟨fun _ => ⟨hc, h1, h3⟩, fun _ => h4⟩, fun _ => ⟨rfl, rfl⟩, rfl, rfl, ?_, hlast⟩
    intro hle
    rw [not_gt_of_le chg.Percent hle] at h1
    exact absurd h1 (by decide)
  · rw [if_neg hcond]
    exact ⟨⟨fun h => absurd rfl h,
        fun h => absurd ⟨h.1, h.2.1, (hlast h.2.1).mpr h.2.2⟩ hcond⟩,
      fun h => absurd rfl h, rfl, rfl, fun _ => rfl, hlast⟩

/-- C7 at percent 45 with cause USER_REQUEST while the current screen brightness is 60:
the manager becomes 45 with need_store_screen true. -/
theorem HandleSetScreenBrightness_changes_iff_witness :
    DecodeSignal demo.unmarshalChange (demo.screenChanged 45 0)
      = .ok { Percent := .fin 45, Cause := pmpb.BacklightBrightnessChange_USER_REQUEST } ∧
    (HandleSetScreenBrightness demo.unmarshalChange
        { screen_brightness := .fin 60, need_store_screen := false,
          keyboard_brightness := .fin 0, need_store_keyboard := false }
        (demo.screenChanged 45 0)).state.screen_brightness = .fin 45 ∧
    (HandleSetScreenBrightness demo.unmarshalChange
        { screen_brightness := .fin 60, need_store_screen := false,
          keyboard_brightness := .fin 0, need_store_keyboard := false }
        (demo.screenChanged 45 0)).state.need_store_screen = true :=
  have hd : DecodeSignal demo.unmarshalChange (demo.screenChanged 45 0)
      = .ok { Percent := .fin 45, Cause := pmpb.BacklightBrightnessChange_USER_REQUEST } := by
    simp [DecodeSignal, demo.screenChanged, demo.unmarshalChange,
      pmpb.BacklightBrightnessChange_USER_REQUEST]
  have h := HandleSetScreenBrightness_changes_iff demo.unmarshalChange
    { screen_brightness := .fin 60, need_store_screen := false,
      keyboard_brightness := .fin 0, need_store_keyboard := false }
    (demo.screenChanged 45 0)
    { Percent := .fin 45, Cause := pmpb.BacklightBrightnessChange_USER_REQUEST } hd
  ⟨hd, h.2.1 (h.1.mpr ⟨rfl, by decide, by decide⟩)⟩


end backlight_manager

namespace strconv

end strconv

namespace backlight_manager

open dbusutil

end backlight_manager

namespace dbusutil

theorem SignalMap.get_set_same {H : Type} (m : SignalMap H) (k : GoString)
    (v : SignalHandlers H) : (m.set k v).get k = some v := by
  induction m with
  | nil => simp [SignalMap.set, SignalMap.get]
  | cons e rest ih =>
    obtain ⟨k0, old⟩ := e
    by_cases h : k0 = k <;> simp [SignalMap.set, SignalMap.get, h, ih]

theorem SignalMap.get_set_other {H : Type} (m : SignalMap H) (k other : GoString)
    (v : SignalHandlers H) (h : other ≠ k) : (m.set k v).get other = m.get other := by
  induction m with
  | nil => simp [SignalMap.set, SignalMap.get, Ne.symm h]
  | cons e rest ih =>
    obtain ⟨k0, old⟩ := e
    by_cases h0 : k0 = k
    · have h1 : ¬ k0 = other := fun e => h (e.symm.trans h0)
      have h2 : ¬ k = other := fun e => h e.symm
      simp [SignalMap.set, SignalMap.get, h0, h1, h2]
    · by_cases h1 : k0 = other
      · subst h1
        simp [SignalMap.set, SignalMap.get, h]
      · simp [SignalMap.set, SignalMap.get, h0, h1, ih]

/-- The handlers under a name after one registration: the new handler is appended to
the handlers of its own name and no other name is touched. -/
theorem RegisterSignalHandler_get {H : Type} (srv : SignalServer H) (name : GoString)
    (handler : Option H) (k : GoString) :
    ((RegisterSignalHandler srv name handler).sigmap.get k).getD []
      = if k = name then (srv.sigmap.get name).getD [] ++ [handler]
        else (srv.sigmap.get k).getD [] := by
  unfold RegisterSignalHandler
  cases hg : srv.sigmap.get name with
  | none =>
    by_cases hk : k = name
    · simp [hk, SignalMap.get_set_same]
    · simp [hk, SignalMap.get_set_other _ _ _ _ hk]
  | some handlers =>
    by_cases hk : k = name
    · simp [hk, SignalMap.get_set_same]
    · simp [hk, SignalMap.get_set_other _ _ _ _ hk]

/-- The handlers under a name after a sequence of registrations: those that were there,
then the registered ones of that name in the order of registration. -/
theorem registerAll_get {H : Type} (regs : List (GoString × Option H)) (srv : SignalServer H)
    (k : GoString) :
    ((registerAll srv regs).sigmap.get k).getD []
      = (srv.sigmap.get k).getD []
        ++ (regs.filter (fun r => r.1 = k)).map (fun r => r.2) := by
  induction regs generalizing srv with
  | nil => simp [registerAll]
  | cons r rs ih =>
    have hstep : registerAll srv (r :: rs)
        = registerAll (RegisterSignalHandler srv r.1 r.2) rs := rfl
    rw [hstep, ih, RegisterSignalHandler_get]
    by_cases hk : r.1 = k
    · simp [hk]
    · have hk2 : ¬ k = r.1 := fun e => hk e.symm
      simp [hk, hk2]

/-- The loop of `handleSignal` invokes each handler that is not nil exactly once, in
order. -/
theorem callHandlers_eq_invokeEach {H W : Type} (invoke : H → Signal → W → Option GoError × W)
    (sig : Signal) (hs : SignalHandlers H) (w : W) :
    callHandlers invoke sig hs w = invokeEach invoke sig (hs.filterMap id) w := by
  induction hs generalizing w with
  | nil => rfl
  | cons h rest ih =>
    cases h with
    | none => simp [callHandlers, ih]
    | some f =>
      simp only [callHandlers, List.filterMap_cons, id, invokeEach, ih]
      cases (invoke f sig w).1 <;> simp

/-- What `handleSignal` does when the name is long enough to be sliced. -/
theorem handleSignal_eq {H W : Type} (invoke : H → Signal → W → Option GoError × W)
    (srv : SignalServer H) (sig : Signal) (w : W)
    (hlen : PowerManagerInterface.length + 1 ≤ sig.Name.length) :
    handleSignal invoke srv sig w
      = some (srv,
          (callHandlers invoke sig
            ((srv.sigmap.get (sig.Name.drop (PowerManagerInterface.length + 1))).getD []) w).1,
          Event.log "Received Signal %s, member: %s" ::
            (callHandlers invoke sig
              ((srv.sigmap.get (sig.Name.drop (PowerManagerInterface.length + 1))).getD [])
              w).2) := by
  unfold handleSignal
  rw [if_neg (Nat.not_lt.mpr hlen)]
  cases hg : srv.sigmap.get (sig.Name.drop (PowerManagerInterface.length + 1)) <;>
    simp [callHandlers, hg]

theorem invokeEach_trace {H : Type} (errOf : H → Option GoError) (sig : Signal)
    (hs : List H) (seen : List H) :
    (invokeEach (fun h _ (l : List H) => (errOf h, l ++ [h])) sig hs seen).1 = seen ++ hs := by
  induction hs generalizing seen with
  | nil => simp [invokeEach]
  | cons h rest ih => simp [invokeEach, ih]

/-- The member name of a signal of the power manager is what follows the interface name
and the dot. -/
theorem member_of_name (member : GoString) :
    PowerManagerInterface.length + 1 ≤ (PowerManagerInterface ++ ascii "." ++ member).length ∧
    (PowerManagerInterface ++ ascii "." ++ member).drop (PowerManagerInterface.length + 1)
      = member := by
  have h1 : (PowerManagerInterface ++ ascii ".").length = PowerManagerInterface.length + 1 := by
    decide
  refine ⟨?_, ?_⟩
  · rw [List.length_append, h1]
    exact Nat.le_add_right _ _
  · rw [← h1]
    exact List.drop_left _ _


/-- What `handleSignal` does on a signal of the power manager after a sequence of
registrations on a new server. -/
theorem handleSignal_registered {H W : Type} (invoke : H → Signal → W → Option GoError × W)
    (regs : List (GoString × Option H)) (member : GoString) (sig : Signal) (w : W)
    (hname : sig.Name = PowerManagerInterface ++ ascii "." ++ member) :
    handleSignal invoke (registerAll NewSignalServer regs) sig w
      = some (registerAll NewSignalServer regs,
          (invokeEach invoke sig (registeredUnder regs member) w).1,
          Event.log "Received Signal %s, member: %s" ::
            (invokeEach invoke sig (registeredUnder regs member) w).2) := by
  have hm := member_of_name member
  rw [← hname] at hm
  rw [handleSignal_eq invoke _ sig w hm.1, hm.2, registerAll_get, callHandlers_eq_invokeEach]
  simp [NewSignalServer, SignalMap.get, registeredUnder, List.filterMap_map]

/-- C9: on a server built by any sequence of RegisterSignalHandler calls, for the signal
named "org.chromium.PowerManager." followed by a member name, handleSignal completes,
leaves the server as it was, and does what invoking each handler registered under that
member name does, each exactly once and in the order of registration, no handler of
another name among them; a handler that returns an error only adds a log line and the
later handlers are still invoked.  With handlers that record their own invocation, the
record after handleSignal is the record before followed by the handlers registered under
the member name, in order, whatever errors they return. -/
theorem handleSignal_invokes_registered_in_order {H W : Type}
    (invoke : H → Signal → W → Option GoError × W)
    (regs : List (GoString × Option H)) (member : GoString) (sig : Signal) (w : W)
    (hname : sig.Name = PowerManagerInterface ++ ascii "." ++ member) :
    handleSignal invoke (registerAll NewSignalServer regs) sig w
      = some (registerAll NewSignalServer regs,
          (invokeEach invoke sig (registeredUnder regs member) w).1,
          Event.log "Received Signal %s, member: %s" ::
            (invokeEach invoke sig (registeredUnder regs member) w).2) ∧
    ∀ (errOf : H → Option GoError) (seen : List H),
      (handleSignal (fun h _ (l : List H) => (errOf h, l ++ [h]))
          (registerAll NewSignalServer regs) sig seen).map (fun r => r.2.1)
        = some (seen ++ registeredUnder regs member) := by
  refine ⟨handleSignal_registered invoke regs member sig w hname, ?_⟩
  intro errOf seen
  rw [handleSignal_registered _ regs member sig seen hname]
  simp [invokeEach_trace]

/-- C9 at four registrations, three of them under SuspendImminent (one nil), the first
handler returning an error: the signal SuspendImminent invokes handler 1, then handler
3, and not handler 2 of SuspendDone. -/
theorem handleSignal_invokes_registered_in_order_witness :
    (demo.suspendImminent 7).Name
      = PowerManagerInterface ++ ascii "." ++ suspend_manager.sigSuspendImminent ∧
    (handleSignal
        (fun h _ (l : List Nat) => (if h = 1 then some (GoError.New "failed") else none, l ++ [h]))
        (registerAll NewSignalServer
          [(suspend_manager.sigSuspendImminent, some 1), (suspend_manager.sigSuspendDone, some 2),
           (suspend_manager.sigSuspendImminent, none), (suspend_manager.sigSuspendImminent, some 3)])
        (demo.suspendImminent 7) []).map (fun r => r.2.1)
      = some [1, 3] :=
  ⟨rfl,
    ((handleSignal_invokes_registered_in_order
        (fun h _ (l : List Nat) => (if h = 1 then some (GoError.New "failed") else none, l ++ [h]))
        [(suspend_manager.sigSuspendImminent, some 1), (suspend_manager.sigSuspendDone, some 2),
         (suspend_manager.sigSuspendImminent, none), (suspend_manager.sigSuspendImminent, some 3)]
        suspend_manager.sigSuspendImminent (demo.suspendImminent 7) [] rfl).2
      (fun h => if h = 1 then some (GoError.New "failed") else none) []).trans (by decide)⟩

end dbusutil

namespace backlight_manager

/-- What `NewScreenBrightnessManager` returns: both flags false; each brightness is the
value `ParseFloat` returns for the entry's text when the entry can be read, whether or
not `ParseFloat` also returns an error, and the default (60 for the screen, 0 for the
keyboard) when it cannot be read. -/
theorem NewScreenBrightnessManager_init (ParseFloat : strconv.ParseFloatFn) (fs : FS) :
    (NewScreenBrightnessManager ParseFloat fs).1
      = { screen_brightness :=
            (match fs.stored fileBrightness with
              | some text => (ParseFloat text).1
              | none => defaultBrightness),
          need_store_screen := false,
          keyboard_brightness :=
            (match fs.stored fileKeyboardBrightness with
              | some text => (ParseFloat text).1
              | none => .fin 0),
          need_store_keyboard := false } := by
  unfold NewScreenBrightnessManager getHWConfig FS.stored
  cases hc : fs.config <;> cases h1 : fs.files fileBrightness <;>
    cases h2 : fs.files fileKeyboardBrightness <;> simp

/-- Without a configuration directory the manager starts with screen 60, keyboard 0 and
both flags false. -/
theorem NewScreenBrightnessManager_no_config (ParseFloat : strconv.ParseFloatFn) (fs : FS)
    (h : fs.config ≠ PathKind.dir) :
    (NewScreenBrightnessManager ParseFloat fs).1
      = { screen_brightness := .fin 60, need_store_screen := false,
          keyboard_brightness := .fin 0, need_store_keyboard := false } := by
  rw [NewScreenBrightnessManager_init]
  simp [FS.stored, h, defaultBrightness]

/-- C10, the part the code does not keep: when the ScreenBrightness entry can be read
and its text is not a number, so that ParseFloat returns 0 and an error, the initial
screen_brightness is 0 and not the default 60. -/
theorem NewScreenBrightnessManager_parse_error_overwrites_default
    (ParseFloat : strconv.ParseFloatFn) (fs : FS) (text : GoString) (e : GoError)
    (hdir : fs.config = PathKind.dir) (hfile : fs.files fileBrightness = some text)
    (hparse : ParseFloat text = (.fin 0, some e)) :
    (NewScreenBrightnessManager ParseFloat fs).1.screen_brightness = .fin 0 ∧
    (NewScreenBrightnessManager ParseFloat fs).1.screen_brightness ≠ defaultBrightness := by
  rw [NewScreenBrightnessManager_init]
  simp only [FS.stored, hdir, if_true, hfile, hparse]
  exact ⟨trivial, by decide⟩

/-- C10 at a configuration directory whose file ScreenBrightness holds the text "abc". -/
theorem NewScreenBrightnessManager_parse_error_overwrites_default_witness :
    (demo.storage (ascii "abc")).config = PathKind.dir ∧
    (demo.storage (ascii "abc")).files fileBrightness = some (ascii "abc") ∧
    demo.ParseFloat (ascii "abc") = (.fin 0, some (.New "strconv.ParseFloat: invalid syntax")) ∧
    (NewScreenBrightnessManager demo.ParseFloat (demo.storage (ascii "abc"))).1.screen_brightness
      = .fin 0 :=
  ⟨rfl, rfl, by decide,
    (NewScreenBrightnessManager_parse_error_overwrites_default demo.ParseFloat
      (demo.storage (ascii "abc")) (ascii "abc") (.New "strconv.ParseFloat: invalid syntax")
      rfl rfl (by decide)).1⟩

end backlight_manager

namespace suspend_manager

open dbusutil

/-- `handleSuspend` either leaves the manager as it was or opens a delay, keeping the
delay id. -/
theorem handleSuspend_state_cases (codec : pmpb.Codec) (obj : BusObject) (script : Script)
    (manager : SuspendManager) (signal : Signal) :
    (handleSuspend codec obj script manager signal).state = manager ∨
    ∃ id : Int, (handleSuspend codec obj script manager signal).state
      = { manager with suspend_id := id, on_suspend_delay := true } := by
  cases hd : manager.on_suspend_delay with
  | true => exact Or.inl (by rw [handleSuspend_reject_busy codec obj script manager signal hd])
  | false =>
    cases hs : DecodeSignal codec.UnmarshalSuspendImminent signal with
    | error e =>
      exact Or.inl (by rw [handleSuspend_reject_decode codec obj script manager signal e hd hs])
    | ok info =>
      refine Or.inr ⟨info.SuspendId, ?_⟩
      unfold handleSuspend
      simp [hd, hs]

/-- `handleResume` either leaves the manager as it was or closes the delay with suspend
id 0, keeping the delay id. -/
theorem handleResume_state_cases (codec : pmpb.Codec) (script : Script)
    (manager : SuspendManager) (signal : Signal) :
    (handleResume codec script manager signal).state = manager ∨
    (handleResume codec script manager signal).state
      = { manager with suspend_id := 0, on_suspend_delay := false } := by
  cases hd : manager.on_suspend_delay with
  | false => exact Or.inl (by rw [handleResume_reject_idle codec script manager signal hd])
  | true =>
    cases hs : DecodeSignal codec.UnmarshalSuspendDone signal with
    | error e =>
      left
      unfold handleResume
      simp [hd, hs]
    | ok info => exact Or.inr (handleResume_accept codec script manager signal info hd hs).2.1

/-- `Register` changes nothing of the manager but the delay id, and that only when it
succeeds. -/
theorem Register_state_cases {H : Type} (codec : pmpb.Codec) (obj : BusObject) (sh rh : H)
    (manager : SuspendManager) (srv : SignalServer H) :
    (Register codec obj sh rh manager srv).state.1 = manager ∨
    ((Register codec obj sh rh manager srv).err = none ∧
      ∃ d : Int, (Register codec obj sh rh manager srv).state.1
        = { manager with delay_id := d }) := by
  cases herr : (Register codec obj sh rh manager srv).err with
  | some e =>
    exact Or.inl (Register_failed codec obj sh rh manager srv (by rw [herr]; exact Option.noConfusion))
  | none =>
    obtain ⟨_, _, reply, _, _, _, _, hst⟩ := Register_ok codec obj sh rh manager srv herr
    exact Or.inr ⟨rfl, reply.DelayId, hst⟩

/-- Each step keeps: outside a delay the suspend id is 0. -/
theorem step_keeps_session {H : Type} (codec : pmpb.Codec)
    (st : SuspendManager × SignalServer H) (s : Step H)
    (h : st.1.on_suspend_delay = false → st.1.suspend_id = 0) :
    (step codec st s).1.on_suspend_delay = false → (step codec st s).1.suspend_id = 0 := by
  cases s with
  | Register obj sh rh =>
    simp only [step]
    rcases Register_state_cases codec obj sh rh st.1 st.2 with h1 | ⟨_, d, h1⟩
    · rw [h1]
      exact h
    · rw [h1]
      exact h
  | handleSuspend signal obj script =>
    simp only [step]
    rcases handleSuspend_state_cases codec obj script st.1 signal with h1 | ⟨id, h1⟩
    · rw [h1]
      exact h
    · rw [h1]
      intro hfalse
      exact Bool.noConfusion hfalse
  | handleResume signal script =>
    simp only [step]
    rcases handleResume_state_cases codec script st.1 signal with h1 | h1
    · rw [h1]
      exact h
    · rw [h1]
      intro _
      rfl

theorem steps_keep_session {H : Type} (codec : pmpb.Codec) (ss : List (Step H))
    (st : SuspendManager × SignalServer H)
    (h : st.1.on_suspend_delay = false → st.1.suspend_id = 0) :
    (steps codec st ss).1.on_suspend_delay = false → (steps codec st ss).1.suspend_id = 0 := by
  induction ss generalizing st with
  | nil => exact h
  | cons s rest ih => exact ih (step codec st s) (step_keeps_session codec st s h)

/-- A step that changes the delay id is a `Register` that returned nil. -/
theorem step_changes_delay_id {H : Type} (codec : pmpb.Codec)
    (st : SuspendManager × SignalServer H) (s : Step H)
    (h : (step codec st s).1.delay_id ≠ st.1.delay_id) :
    ∃ (obj : BusObject) (sh rh : H), s = Step.Register obj sh rh ∧
      (Register codec obj sh rh st.1 st.2).err = none := by
  cases s with
  | Register obj sh rh =>
    refine ⟨obj, sh, rh, rfl, ?_⟩
    simp only [step] at h
    rcases Register_state_cases codec obj sh rh st.1 st.2 with h1 | ⟨herr, _⟩
    · rw [h1] at h
      exact absurd rfl h
    · exact herr
  | handleSuspend signal obj script =>
    simp only [step] at h
    rcases handleSuspend_state_cases codec obj script st.1 signal with h1 | ⟨id, h1⟩ <;>
      rw [h1] at h <;> exact absurd rfl h
  | handleResume signal script =>
    simp only [step] at h
    rcases handleResume_state_cases codec script st.1 signal with h1 | h1 <;>
      rw [h1] at h <;> exact absurd rfl h

/-- C11: in every state reached from NewSuspendManager (with a new signal server) by any
sequence of Register, handleSuspend and handleResume steps, whatever the signals, the
codec, the hook outcomes and the answers of the peer, on_suspend_delay = false implies
suspend_id = 0; and from any state, a step that changes delay_id is a Register that
returned nil. -/
theorem suspend_session_invariant {H : Type} (codec : pmpb.Codec) (ss : List (Step H)) :
    ((steps codec (NewSuspendManager, NewSignalServer) ss).1.on_suspend_delay = false →
      (steps codec (NewSuspendManager, NewSignalServer) ss).1.suspend_id = 0) ∧
    (∀ (st : SuspendManager × SignalServer H) (s : Step H),
      (step codec st s).1.delay_id ≠ st.1.delay_id →
      ∃ (obj : BusObject) (sh rh : H), s = Step.Register obj sh rh ∧
        (Register codec obj sh rh st.1 st.2).err = none) :=
  ⟨steps_keep_session codec ss (NewSuspendManager, NewSignalServer) (fun _ => rfl),
    step_changes_delay_id codec⟩

/-- C11 after a Register answered with the token 5, the suspend notification 7 and the
resume notification 9: the manager is outside a delay with suspend id 0 and delay id 5. -/
theorem suspend_session_invariant_witness :
    (steps demo.codec (NewSuspendManager, NewSignalServer)
        [Step.Register (demo.peer 5) () (),
         Step.handleSuspend (demo.suspendImminent 7) (demo.peer 0) demo.slowScript,
         Step.handleResume (demo.suspendDone 9) demo.missingScript]).1.on_suspend_delay = false ∧
    (steps demo.codec (NewSuspendManager, NewSignalServer)
        [Step.Register (demo.peer 5) () (),
         Step.handleSuspend (demo.suspendImminent 7) (demo.peer 0) demo.slowScript,
         Step.handleResume (demo.suspendDone 9) demo.missingScript]).1.suspend_id = 0 ∧
    (steps demo.codec (NewSuspendManager, NewSignalServer)
        [Step.Register (demo.peer 5) () (),
         Step.handleSuspend (demo.suspendImminent 7) (demo.peer 0) demo.slowScript,
         Step.handleResume (demo.suspendDone 9) demo.missingScript]).1.delay_id = 5 :=
  ⟨by decide,
    (suspend_session_invariant demo.codec
      [Step.Register (demo.peer 5) () (),
       Step.handleSuspend (demo.suspendImminent 7) (demo.peer 0) demo.slowScript,
       Step.handleResume (demo.suspendDone 9) demo.missingScript]).1 (by decide),
    by decide⟩

end suspend_manager

namespace dbusutil

/-- `handleSignal` panics exactly on the names too short to be sliced. -/
theorem handleSignal_none_iff {H W : Type} (invoke : H → Signal → W → Option GoError × W)
    (srv : SignalServer H) (sig : Signal) (w : W) :
    handleSignal invoke srv sig w = none
      ↔ sig.Name.length < PowerManagerInterface.length + 1 := by
  by_cases hlen : sig.Name.length < PowerManagerInterface.length + 1
  · unfold handleSignal
    simp [hlen]
  · rw [handleSignal_eq invoke srv sig w (Nat.not_lt.mp hlen)]
    simp [hlen]

theorem LoopOutcome.wrap_nil {σ : Type} (o : LoopOutcome σ) : o.wrap [] [] = o := by
  cases o <;> simp [LoopOutcome.wrap]

theorem LoopOutcome.wrap_wrap {σ : Type} (o : LoopOutcome σ) (a b : List Event) :
    (o.wrap a []).wrap b [] = o.wrap (b ++ a) [] := by
  cases o <;> simp [LoopOutcome.wrap]

/-- A loop that is waiting goes on with what arrives next. -/
theorem workingLoop_append {H W : Type} (invoke : H → Signal → W → Option GoError × W)
    (before more : List Inbound) (srv srv1 : SignalServer H) (w0 w1 : W) (evs : List Event)
    (h : workingLoop invoke srv before w0 = .waiting (srv1, w1) evs) :
    workingLoop invoke srv (before ++ more) w0
      = (workingLoop invoke srv1 more w1).wrap evs [] := by
  induction before generalizing srv w0 evs with
  | nil =>
    simp only [workingLoop, LoopOutcome.waiting.injEq, Prod.mk.injEq] at h
    obtain ⟨⟨h1, h2⟩, h3⟩ := h
    subst h1 h2 h3
    simp [LoopOutcome.wrap_nil]
  | cons m rest ih =>
    cases m with
    | ctxDone => simp [workingLoop] at h
    | sysSignal => simp [workingLoop] at h
    | signal sig =>
      simp only [List.cons_append, workingLoop] at h ⊢
      cases hs : handleSignal invoke srv sig w0 with
      | none => simp [hs] at h
      | some r =>
        obtain ⟨srv2, w2, ev⟩ := r
        simp only [hs] at h ⊢
        cases hl : workingLoop invoke srv2 rest w2 with
        | exited s e => simp [hl, LoopOutcome.wrap] at h
        | panicked s e => simp [hl, LoopOutcome.wrap] at h
        | waiting s e =>
          simp only [hl, LoopOutcome.wrap, LoopOutcome.waiting.injEq] at h
          obtain ⟨h1, h2⟩ := h
          subst h1 h2
          have hih := ih srv2 w2 e hl
          simp only [List.append_eq]
          rw [hih, LoopOutcome.wrap_wrap]
          simp

/-- C12, what the code does: handleSignal fails with an out-of-range slice exactly when
the name of the signal is shorter than len(PowerManagerInterface)+1 = 26 bytes, and
completes for every other name, whether or not it starts with the prefix.  When such a
short-named signal arrives while the loop of StartWorking is waiting, StartWorking ends
by that panic, whatever arrives afterwards. -/
theorem handleSignal_short_name_aborts_loop {H W : Type}
    (invoke : H → Signal → W → Option GoError × W)
    (srv : SignalServer H) (sig : Signal) (w : W) :
    (handleSignal invoke srv sig w = none
      ↔ sig.Name.length < PowerManagerInterface.length + 1) ∧
    (sig.Name.length < PowerManagerInterface.length + 1 →
      ∀ (addErr removeErr : GoString → Option GoError) (srv0 : SignalServer H)
        (before rest : List Inbound) (w0 : W) (evs : List Event),
        workingLoop invoke srv0 before w0 = .waiting (srv, w) evs →
        StartWorking invoke addErr removeErr srv0 (before ++ Inbound.signal sig :: rest) w0
          = .panicked ({ sigmap := [] }, w)
              (addAllSignals addErr srv0.sigmap ++ [Event.log "Start listening for signals..."]
                ++ evs ++ removeMatchSignals removeErr srv.sigmap)) := by
  refine ⟨handleSignal_none_iff invoke srv sig w, ?_⟩
  intro hshort addErr removeErr srv0 before rest w0 evs hwait
  have hnone := (handleSignal_none_iff invoke srv sig w).mpr hshort
  unfold StartWorking
  rw [workingLoop_append invoke before (Inbound.signal sig :: rest) srv0 srv w0 w evs hwait]
  simp [workingLoop, hnone, LoopOutcome.wrap, removeAllSignals]

/-- C12 at the signal named "a.b.c", which arrives after a SuspendImminent signal and
before the end of the context, on a server with one handler: handleSignal panics and
StartWorking ends by the panic. -/
theorem handleSignal_short_name_aborts_loop_witness :
    ({ Name := ascii "a.b.c", Body := [] } : Signal).Name.length
      < PowerManagerInterface.length + 1 ∧
    handleSignal (fun (h : Nat) _ (l : List Nat) => (none, l ++ [h]))
      (registerAll NewSignalServer [(suspend_manager.sigSuspendImminent, some 1)])
      { Name := ascii "a.b.c", Body := [] } [1] = none ∧
    StartWorking (fun (h : Nat) _ (l : List Nat) => (none, l ++ [h]))
      (fun _ => none) (fun _ => none)
      (registerAll NewSignalServer [(suspend_manager.sigSuspendImminent, some 1)])
      ([Inbound.signal (demo.suspendImminent 7)]
        ++ Inbound.signal { Name := ascii "a.b.c", Body := [] } :: [Inbound.ctxDone]) []
      = .panicked ({ sigmap := [] }, [1])
          (addAllSignals (fun _ => none)
              (registerAll NewSignalServer
                [(suspend_manager.sigSuspendImminent, some 1)]).sigmap
            ++ [Event.log "Start listening for signals..."]
            ++ [Event.log "Received Signal %s, member: %s"]
            ++ removeMatchSignals (fun _ => none)
              (registerAll NewSignalServer
                [(suspend_manager.sigSuspendImminent, some 1)]).sigmap) :=
  ⟨by decide,
    (handleSignal_short_name_aborts_loop (fun (h : Nat) _ (l : List Nat) => (none, l ++ [h]))
      (registerAll NewSignalServer [(suspend_manager.sigSuspendImminent, some 1)])
      { Name := ascii "a.b.c", Body := [] } [1]).1.mpr (by decide),
    (handleSignal_short_name_aborts_loop (fun (h : Nat) _ (l : List Nat) => (none, l ++ [h]))
      (registerAll NewSignalServer [(suspend_manager.sigSuspendImminent, some 1)])
      { Name := ascii "a.b.c", Body := [] } [1]).2 (by decide) (fun _ => none) (fun _ => none)
      (registerAll NewSignalServer [(suspend_manager.sigSuspendImminent, some 1)])
      [Inbound.signal (demo.suspendImminent 7)] [Inbound.ctxDone] []
      [Event.log "Received Signal %s, member: %s"] (by rfl)⟩

end dbusutil
